import Mathlib

/-!
Shallow embedding of the Budzee backend core (matchmaking, memory-game session
state machine, wallet/ledger service) and proofs about it.

Conventions of the embedding:
* Money amounts are rationals (`ℚ`); the source stores decimal amounts and the
  claims under study are about exact bookkeeping identities, not rounding.
* The Prisma store is modelled as in-memory lists (wallet rows keyed by user id,
  an append-only transaction table, the matchmaking queue, the game table).
* `prisma.$transaction` blocks are modelled as atomic state transformations:
  a thrown error inside a block yields the pre-block state (rollback), and
  separately committed transactions (e.g. nested `walletService` calls that
  open their own `prisma.$transaction`) keep their effects.
* In-process concurrency guards that cannot fire in a sequential execution
  (`ongoingDeductions` in WalletService, which is added on entry and removed in
  the `finally` of the same call) are elided.
-/

/-- Transaction `type` values used by the wallet service (walletService.js). -/
inductive TxType where
  | DEPOSIT
  | WITHDRAWAL
  | GAME_ENTRY
  | GAME_WINNING
  | REFUND
  | REFERRAL_BONUS
  | REFERRAL_SIGNUP_BONUS
deriving DecidableEq, Repr

/-- Transaction `status` values. -/
inductive TxStatus where
  | PENDING
  | COMPLETED
  | FAILED
deriving DecidableEq, Repr

/-- A wallet row: `balance`, `gameBalance` (playable) and `withdrawableBalance`. -/
structure Wallet where
  balance : ℚ
  gameBalance : ℚ
  withdrawableBalance : ℚ
deriving DecidableEq, Repr

instance : Inhabited Wallet := ⟨⟨0, 0, 0⟩⟩

/-- A row of the `transaction` table (fields relevant to the ledger claims). -/
structure Txn where
  userId : String
  type : TxType
  amount : ℚ
  status : TxStatus
  gameId : Option String
deriving DecidableEq, Repr

/-- The wallet-service view of the store: wallet rows plus the transaction table
(append-only; rows are appended in creation order). -/
structure WalletDB where
  wallets : List (String × Wallet)
  transactions : List Txn
deriving DecidableEq, Repr

/-- Look up a wallet row by user id. -/
def lookupWallet (ws : List (String × Wallet)) (uid : String) : Option Wallet :=
  (ws.find? (fun p => p.1 = uid)).map (·.2)

/-- Replace the wallet row of `uid` (the row is assumed to exist). -/
def setWallet (ws : List (String × Wallet)) (uid : String) (w : Wallet) :
    List (String × Wallet) :=
  ws.map (fun p => if p.1 = uid then (uid, w) else p)

/-- `WalletService.getWallet`: returns the wallet, creating a zero-balance row
if the user has none yet. -/
def getWallet (db : WalletDB) (uid : String) : Wallet × WalletDB :=
  match lookupWallet db.wallets uid with
  | some w => (w, db)
  | none =>
      let w : Wallet := ⟨0, 0, 0⟩
      (w, { db with wallets := db.wallets ++ [(uid, w)] })

/-- Number of transactions for the idempotency key (account, session, kind)
with the given status. -/
def countTx (db : WalletDB) (uid : String) (gid : Option String) (ty : TxType)
    (st : TxStatus) : Nat :=
  db.transactions.countP
    (fun t => decide (t.userId = uid ∧ t.gameId = gid ∧ t.type = ty ∧ t.status = st))

/-- Sum of the amounts of COMPLETED transactions of kind `ty` attached to game
`gid` (over all accounts). -/
def sumTx (db : WalletDB) (gid : String) (ty : TxType) : ℚ :=
  ((db.transactions.filter
    (fun t => decide (t.gameId = some gid ∧ t.type = ty ∧ t.status = .COMPLETED))).map
    (fun t => t.amount)).sum

/-- Result of `WalletService.deductGameEntry`. -/
inductive DeductResult where
  | success (balance gameBalance withdrawableBalance : ℚ)
  | alreadyDeducted
  | insufficientBalance
  | invalidAmount
deriving DecidableEq, Repr

/-- `WalletService.deductGameEntry(userId, amount, gameId)`.

Mirrors the source: reject non-positive amounts; return the duplicate result if
a COMPLETED or PENDING GAME_ENTRY transaction already exists for
(userId, gameId); fail with insufficient balance when
`gameBalance + withdrawableBalance < amount`; otherwise, in one transaction,
append a COMPLETED GAME_ENTRY row and deduct the amount taking it from
`gameBalance` first and the remainder from `withdrawableBalance`. -/
def deductGameEntry (db : WalletDB) (uid : String) (amount : ℚ) (gid : String) :
    WalletDB × DeductResult :=
  if amount ≤ 0 then (db, .invalidAmount)
  else
    if (db.transactions.countP (fun t =>
        decide (t.userId = uid ∧ t.gameId = some gid ∧ t.type = .GAME_ENTRY ∧
          (t.status = .COMPLETED ∨ t.status = .PENDING)))) ≠ 0 then
      (db, .alreadyDeducted)
    else
      let wdb := getWallet db uid
      let w := wdb.1
      let db1 := wdb.2
      if w.gameBalance + w.withdrawableBalance < amount then
        (db1, .insufficientBalance)
      else
        let gameBalanceDeduction :=
          if amount ≤ w.gameBalance then amount else w.gameBalance
        let withdrawableBalanceDeduction := amount - gameBalanceDeduction
        let w' : Wallet :=
          ⟨w.balance - amount, w.gameBalance - gameBalanceDeduction,
            w.withdrawableBalance - withdrawableBalanceDeduction⟩
        let db2 : WalletDB :=
          { wallets := setWallet db1.wallets uid w'
            transactions :=
              db1.transactions ++ [⟨uid, .GAME_ENTRY, amount, .COMPLETED, some gid⟩] }
        (db2, .success w'.balance w'.gameBalance w'.withdrawableBalance)

/-- Result of `WalletService.creditWallet`. -/
inductive CreditResult where
  | success (balance gameBalance withdrawableBalance : ℚ)
  | invalidAmount
deriving DecidableEq, Repr

/-- `WalletService.creditWallet(userId, amount, type, gameId)`.

Mirrors the source: reject non-positive amounts; otherwise append a COMPLETED
transaction of the given kind and increment `balance`, routing GAME_WINNING to
`withdrawableBalance` and REFERRAL_BONUS / REFERRAL_SIGNUP_BONUS / DEPOSIT /
REFUND to `gameBalance`. There is no duplicate check by
(account, session, kind). -/
def creditWallet (db : WalletDB) (uid : String) (amount : ℚ) (ty : TxType)
    (gid : Option String) : WalletDB × CreditResult :=
  if amount ≤ 0 then (db, .invalidAmount)
  else
    let wdb := getWallet db uid
    let w := wdb.1
    let db1 := wdb.2
    let wGame : ℚ :=
      if ty = .GAME_WINNING then 0
      else if ty = .REFERRAL_BONUS ∨ ty = .REFERRAL_SIGNUP_BONUS then amount
      else if ty = .DEPOSIT then amount
      else if ty = .REFUND then amount
      else 0
    let wWithdraw : ℚ := if ty = .GAME_WINNING then amount else 0
    let w' : Wallet :=
      ⟨w.balance + amount, w.gameBalance + wGame, w.withdrawableBalance + wWithdraw⟩
    let db2 : WalletDB :=
      { wallets := setWallet db1.wallets uid w'
        transactions := db1.transactions ++ [⟨uid, ty, amount, .COMPLETED, gid⟩] }
    (db2, .success w'.balance w'.gameBalance w'.withdrawableBalance)

/-- Game `status` values (prisma Game model / gameService). -/
inductive GameStatus where
  | WAITING
  | PLAYING
  | FINISHED
  | CANCELLED
deriving DecidableEq, Repr

/-- A row of the `game` table with its participants (user ids in seat order,
as produced by `gameParticipation` records). -/
structure Game where
  gameType : String
  maxPlayers : Nat
  entryFee : ℚ
  prizePool : ℚ
  participants : List String
  status : GameStatus
deriving DecidableEq, Repr

/-- A row of the `matchmakingQueue` table. The list order of the queue is
creation order (`createdAt` ascending). -/
structure QueueEntry where
  id : Nat
  userId : String
  gameType : String
  maxPlayers : Nat
  entryFee : ℚ
deriving DecidableEq, Repr

/-- Combined backend state: the wallet store, the matchmaking queue, the game
table, the in-memory `processedWinnings` set of MemoryGameService, and the
user table restricted to the `isBot` flag (with a counter for fresh bot ids
and fresh game ids). -/
structure SysState where
  db : WalletDB
  queue : List QueueEntry
  games : List (String × Game)
  processedWinnings : List String
  users : List (String × Bool)
  nextGameId : Nat
  nextQueueId : Nat
  nextBotId : Nat
deriving DecidableEq, Repr

/-- Look up a game row by id (`gameService.getGameById`). -/
def getGameById (s : SysState) (gid : String) : Option Game :=
  ((s.games.find? (fun p => p.1 = gid)).map (·.2))

/-- End-of-game reasons recognised by MemoryGameService. -/
inductive EndReason where
  | game_completed
  | opponent_quit
  | opponent_eliminated
  | network_issue
  | server_error
deriving DecidableEq, Repr

/-- Result of `MemoryGameService.safeProcessWinnings`. -/
inductive SettleResult where
  | alreadyProcessed
  | gameNotFound
  | alreadyProcessedInDb
  | refundedAllPlayers
  | winnerCredited (amount : ℚ)
  | invalidWinnerOrReason
  | processingError
deriving DecidableEq, Repr

/-- The refund loop of `safeProcessWinnings`: credit each participant their
entry fee with kind REFUND. Each `creditWallet` call commits independently;
a thrown error (non-positive amount) aborts the rest of the loop. -/
def refundLoop (db : WalletDB) (userIds : List String) (fee : ℚ) (gid : String) :
    WalletDB × Bool :=
  match userIds with
  | [] => (db, true)
  | u :: rest =>
      match creditWallet db u fee .REFUND (some gid) with
      | (db', .success _ _ _) => refundLoop db' rest fee gid
      | (db', .invalidAmount) => (db', false)

/-- `MemoryGameService.safeProcessWinnings(gameId, winnerId, reason)`.

Mirrors the source: skip if the game id is already in the in-memory
`processedWinnings` set; mark it processed; fetch the game (unmarking and
failing if absent); skip if a COMPLETED GAME_WINNING transaction already
exists for the game; on a network/server reason refund every participant the
entry fee; on a winner reason credit the winner the prize pool; otherwise
unmark and report an invalid winner/reason. A credit error unmarks the game
and reports a processing error (credits already committed stay). -/
def safeProcessWinnings (s : SysState) (gid : String) (winnerId : Option String)
    (reason : EndReason) : SysState × SettleResult :=
  if gid ∈ s.processedWinnings then (s, .alreadyProcessed)
  else
    let s1 : SysState := { s with processedWinnings := gid :: s.processedWinnings }
    match getGameById s gid with
    | none => (s, .gameNotFound)
    | some game =>
        if (s.db.transactions.countP (fun t =>
            decide (t.gameId = some gid ∧ t.type = .GAME_WINNING ∧
              t.status = .COMPLETED))) ≠ 0 then
          (s1, .alreadyProcessedInDb)
        else if reason = .network_issue ∨ reason = .server_error then
          let r := refundLoop s.db game.participants game.entryFee gid
          if r.2 then ({ s1 with db := r.1 }, .refundedAllPlayers)
          else
            ({ s1 with db := r.1, processedWinnings := s.processedWinnings },
              .processingError)
        else
          match winnerId with
          | some w =>
              if reason = .game_completed ∨ reason = .opponent_quit ∨
                  reason = .opponent_eliminated then
                match creditWallet s.db w game.prizePool .GAME_WINNING (some gid) with
                | (db', .success _ _ _) =>
                    ({ s1 with db := db' }, .winnerCredited game.prizePool)
                | (db', .invalidAmount) =>
                    ({ s1 with db := db', processedWinnings := s.processedWinnings },
                      .processingError)
              else
                ({ s1 with processedWinnings := s.processedWinnings },
                  .invalidWinnerOrReason)
          | none =>
              ({ s1 with processedWinnings := s.processedWinnings },
                .invalidWinnerOrReason)

/-- Result of `MatchmakingService.joinQueue`. Both success constructors carry
the queue entry id the source reports; `successAlready` corresponds to the
"Already in matchmaking queue for this game" success response. -/
inductive JoinResult where
  | successJoined (queueId : Nat)
  | successAlready (queueId : Nat)
  | errInsufficientBalance
deriving DecidableEq, Repr

/-- `MatchmakingService.joinQueue(userId, gameType, maxPlayers, entryFee)`.

Mirrors the source: for a paid game, fail when
`gameBalance + withdrawableBalance < entryFee` (reading the wallet creates the
row if absent); if the user already has an entry for the same
(gameType, maxPlayers, entryFee) key, return success with that entry's id and
change nothing; otherwise delete every entry of the user and insert one fresh
entry for the requested key. -/
def joinQueue (s : SysState) (uid : String) (gameType : String) (maxPlayers : Nat)
    (entryFee : ℚ) : SysState × JoinResult :=
  let balCheck : SysState × Bool :=
    if 0 < entryFee then
      let wdb := getWallet s.db uid
      if wdb.1.gameBalance + wdb.1.withdrawableBalance < entryFee then
        ({ s with db := wdb.2 }, false)
      else ({ s with db := wdb.2 }, true)
    else (s, true)
  if balCheck.2 = false then (balCheck.1, .errInsufficientBalance)
  else
    let s0 := balCheck.1
    match s0.queue.find? (fun q =>
        q.userId = uid ∧ q.gameType = gameType ∧ q.maxPlayers = maxPlayers ∧
          q.entryFee = entryFee) with
    | some existing => (s0, .successAlready existing.id)
    | none =>
        let cleared := s0.queue.filter (fun q => q.userId ≠ uid)
        let entry : QueueEntry := ⟨s0.nextQueueId, uid, gameType, maxPlayers, entryFee⟩
        ({ s0 with queue := cleared ++ [entry], nextQueueId := s0.nextQueueId + 1 },
          .successJoined entry.id)

/-- Keep only the first queue entry of each user (prisma `distinct: ['userId']`
on a `createdAt`-ascending scan). -/
def distinctByUser : List QueueEntry → List String → List QueueEntry
  | [], _ => []
  | q :: rest, seen =>
      if q.userId ∈ seen then distinctByUser rest seen
      else q :: distinctByUser rest (q.userId :: seen)

/-- Result of `MatchmakingService.createGame`. -/
inductive CreateGameResult where
  | created (gid : String) (game : Game)
  | insufficientPlayers
  | debitFailed
deriving DecidableEq, Repr

/-- Fresh game id generated for the `game` row. -/
def genGameId (n : Nat) : String := "game" ++ toString n

/-- Entry-fee debit loop of `createGame`: deduct the fee from each matched user.
Each `deductGameEntry` runs in its own committed transaction, so on a failure
the earlier debits keep their effects while the loop stops. -/
def debitLoop (db : WalletDB) (userIds : List String) (fee : ℚ) (gid : String) :
    WalletDB × Bool :=
  match userIds with
  | [] => (db, true)
  | u :: rest =>
      match deductGameEntry db u fee gid with
      | (db', .success _ _ _) => debitLoop db' rest fee gid
      | (db', _) => (db', false)

/-- `MatchmakingService.createGame(gameType, playersToMatch, entryFee)`.

Mirrors the source transaction: take the oldest `playersToMatch` queue entries
of the pool key (distinct by user); abort (changing nothing) if there are too
few; compute `prizePool = entryFee * playersToMatch * 0.8`; create the game
row in WAITING status and delete the chosen queue entries; for a paid game
deduct the entry fee from every chosen user. A debit failure rolls back the
game row and the queue deletions, while the already-committed wallet debits
keep their effects (the nested wallet calls commit independently). -/
def createGame (s : SysState) (gameType : String) (playersToMatch : Nat)
    (entryFee : ℚ) : SysState × CreateGameResult :=
  let pool := s.queue.filter (fun q =>
    decide (q.gameType = gameType ∧ q.maxPlayers = playersToMatch ∧
      q.entryFee = entryFee))
  let queueEntries := (distinctByUser pool []).take playersToMatch
  if queueEntries.length < playersToMatch then (s, .insufficientPlayers)
  else
    let totalEntryFees := entryFee * playersToMatch
    let prizePool := totalEntryFees * (4 / 5)
    let gid := genGameId s.nextGameId
    let userIds := queueEntries.map (·.userId)
    let game : Game :=
      ⟨gameType, playersToMatch, entryFee, prizePool, userIds, .WAITING⟩
    let chosenIds := queueEntries.map (·.id)
    let queue' := s.queue.filter (fun q => q.id ∉ chosenIds)
    if 0 < entryFee then
      let r := debitLoop s.db userIds entryFee gid
      if r.2 then
        ({ s with
            db := r.1
            queue := queue'
            games := s.games ++ [(gid, game)]
            nextGameId := s.nextGameId + 1 },
          .created gid game)
      else
        ({ s with db := r.1 }, .debitFailed)
    else
      ({ s with
          queue := queue'
          games := s.games ++ [(gid, game)]
          nextGameId := s.nextGameId + 1 },
        .created gid game)

/-- True when `uid` participates in a game whose status is WAITING or PLAYING. -/
def inActiveGame (s : SysState) (uid : String) : Bool :=
  s.games.any (fun p =>
    decide ((p.2.status = .WAITING ∨ p.2.status = .PLAYING) ∧ uid ∈ p.2.participants))

/-- `BotService.getBotForMatchmaking(gameType, entryFee)`.

Mirrors the source: pick the first bot user that is in no queue and in no
WAITING/PLAYING game, creating a fresh bot user if none is available; top up
its wallet when the balance is below the fee; enqueue it — with the hardcoded
`maxPlayers: 2` of the source — and return its id. -/
def getBotForMatchmaking (s : SysState) (gameType : String) (entryFee : ℚ) :
    SysState × String :=
  let bot? := s.users.find? (fun p =>
    p.2 = true ∧ (s.queue.all (fun q => q.userId ≠ p.1)) = true ∧
      inActiveGame s p.1 = false)
  let picked : SysState × String :=
    match bot? with
    | some p => (s, p.1)
    | none =>
        let bid := "bot" ++ toString s.nextBotId
        ({ s with users := s.users ++ [(bid, true)], nextBotId := s.nextBotId + 1 },
          bid)
  let s1 := picked.1
  let bid := picked.2
  let wdb := getWallet s1.db bid
  let s2 : SysState :=
    if 0 < entryFee ∧ wdb.1.gameBalance < entryFee then
      let topUp := max 1000 (entryFee * 10)
      let w' : Wallet :=
        ⟨wdb.1.balance + topUp, wdb.1.gameBalance + topUp, wdb.1.withdrawableBalance⟩
      { s1 with db := { wdb.2 with wallets := setWallet wdb.2.wallets bid w' } }
    else { s1 with db := wdb.2 }
  let entry : QueueEntry := ⟨s2.nextQueueId, bid, gameType, 2, entryFee⟩
  ({ s2 with queue := s2.queue ++ [entry], nextQueueId := s2.nextQueueId + 1 }, bid)

/-- Outcome of `deployBotIfNeeded`; `deployedBot` is the branch that also
schedules an immediate matchmaking pass (`setTimeout(processMatchmaking)`). -/
inductive DeployResult where
  | deployedBot (botId : String)
  | skippedOnlyBots
  | skippedEmptyQueue
  | skippedEnoughPlayers
deriving DecidableEq, Repr

/-- True when `uid` is a bot user. -/
def isBotUser (s : SysState) (uid : String) : Bool :=
  ((s.users.find? (fun p => p.1 = uid)).map (·.2)).getD false

/-- `MatchmakingService.deployBotIfNeeded(gameType, maxPlayers, entryFee)` —
the body of the backfill timer.

Mirrors the source: count the queue entries of the pool key at fire time;
when `0 < count < maxPlayers` and at least one entry belongs to a non-bot
user, add exactly one bot to the queue via `getBotForMatchmaking` and trigger
an immediate matchmaking pass; in every other case change nothing. -/
def deployBotIfNeeded (s : SysState) (gameType : String) (maxPlayers : Nat)
    (entryFee : ℚ) : SysState × DeployResult :=
  if 0 < s.queue.countP (fun q =>
        decide (q.gameType = gameType ∧ q.maxPlayers = maxPlayers ∧
          q.entryFee = entryFee)) ∧
      s.queue.countP (fun q =>
        decide (q.gameType = gameType ∧ q.maxPlayers = maxPlayers ∧
          q.entryFee = entryFee)) < maxPlayers then
    if 0 < s.queue.countP (fun q =>
        decide (q.gameType = gameType ∧ q.maxPlayers = maxPlayers ∧
          q.entryFee = entryFee ∧ isBotUser s q.userId = false)) then
      let r := getBotForMatchmaking s gameType entryFee
      (r.1, .deployedBot r.2)
    else (s, .skippedOnlyBots)
  else if s.queue.countP (fun q =>
      decide (q.gameType = gameType ∧ q.maxPlayers = maxPlayers ∧
        q.entryFee = entryFee)) = 0 then (s, .skippedEmptyQueue)
  else (s, .skippedEnoughPlayers)

/-- A card of the memory board. The 15 distinct emoji symbol literals of the
source are abstracted to their indices 0–14 (only their identity matters). -/
structure Card where
  id : Nat
  position : Nat
  symbol : Nat
  isFlipped : Bool
  isMatched : Bool
deriving DecidableEq, Repr

instance : Inhabited Card := ⟨⟨0, 0, 0, false, false⟩⟩

/-- The 30 cards before shuffling: two cards per symbol, pushed in symbol
order with ids and positions `2*i` and `2*i+1`. -/
def initialCards : List Card :=
  (List.range 15).flatMap (fun i =>
    [⟨2 * i, 2 * i, i, false, false⟩, ⟨2 * i + 1, 2 * i + 1, i, false, false⟩])

/-- One step of the seeded pseudo-random generator:
`seedValue = (seedValue * 16807) % 2147483647`. The double-precision
arithmetic of the source is exact here (all intermediates are below 2^53). -/
def seededNext (s : Nat) : Nat := (s * 16807) % 2147483647

/-- Swap the elements at positions `i` and `j` — the embedding of
`[cards[i], cards[j]] = [cards[j], cards[i]]`. -/
def swapCards (l : List Card) (i j : Nat) : List Card :=
  (l.set i (l.getD j default)).set j (l.getD i default)

/-- The inner Fisher–Yates loop of `createGameBoard`, processing indices
`i, i-1, …, 1`: advance the seed, pick `j = floor(rand * (i+1))` (exactly
`seed' * (i+1) / 2147483647` in integers, since `2147483647` is prime and the
floating-point error is far below `1/2147483647`), and swap. -/
def fisherYatesDown : List Card → Nat → Nat → List Card × Nat
  | l, s, 0 => (l, s)
  | l, s, i + 1 =>
      let s' := seededNext s
      let j := s' * (i + 2) / 2147483647
      fisherYatesDown (swapCards l (i + 1) j) s' i

/-- One full shuffle pass over the card list. -/
def shufflePass (ls : List Card × Nat) : List Card × Nat :=
  fisherYatesDown ls.1 ls.2 (ls.1.length - 1)

/-- Renumber `position` fields to the post-shuffle indices
(`cards.forEach((card, index) => card.position = index)`). -/
def renumberFrom (n : Nat) : List Card → List Card
  | [] => []
  | c :: cs => { c with position := n } :: renumberFrom (n + 1) cs

/-- `MemoryGameService.createGameBoard(roomId)`.

The seed is the sum of the character codes of the room id; for a falsy
(empty) room id the source falls back to `Date.now()`, passed here as `now`.
Three passes of the seeded Fisher–Yates shuffle are applied and positions are
renumbered. (The source then validates that every symbol appears exactly
twice and throws otherwise; the validation provably never fires.) -/
def createGameBoard (roomId : String) (now : Nat) : List Card :=
  let seed := if roomId ≠ "" then (roomId.data.map Char.toNat).sum else now
  let shuffled := shufflePass (shufflePass (shufflePass (initialCards, seed)))
  renumberFrom 0 shuffled.1

/-- A player of the in-memory game state. -/
structure Player where
  id : String
  name : String
  position : Nat
  score : Nat
deriving DecidableEq, Repr

instance : Inhabited Player := ⟨⟨"", "", 0, 0⟩⟩

/-- In-memory game `status` strings of MemoryGameService. -/
inductive GStatus where
  | playing
  | finished
  | waiting
deriving DecidableEq, Repr

/-- An element of `gameState.selectedCards`. -/
structure SelCard where
  position : Nat
  symbol : Nat
  cardId : Nat
deriving DecidableEq, Repr

instance : Inhabited SelCard := ⟨⟨0, 0, 0⟩⟩

/-- Per-player JS-object maps (`scores`, `lifelines`, `missedTurns`),
modelled as association lists. -/
abbrev PMap := List (String × Nat)

/-- Read a map entry (0 when absent). -/
def pmGet (m : PMap) (k : String) : Nat :=
  (((m.find? (fun p => p.1 = k)).map (·.2)).getD 0)

/-- True when the key is present. -/
def pmHas (m : PMap) (k : String) : Bool :=
  m.any (fun p => p.1 = k)

/-- Write a map entry (insert if absent). -/
def pmSet (m : PMap) (k : String) (v : Nat) : PMap :=
  if pmHas m k then m.map (fun p => if p.1 = k then (k, v) else p)
  else m ++ [(k, v)]

/-- Delete a map entry (`delete obj[k]`). -/
def pmDel (m : PMap) (k : String) : PMap :=
  m.filter (fun p => p.1 ≠ k)

/-- The in-memory state of one running memory game
(`this.games.get(roomId)`), plus the `winner` recorded in the database row by
`endGame` via `updateGameState` (kept here so termination outcomes are
observable). -/
structure GameState where
  board : List Card
  players : List Player
  currentTurnIndex : Nat
  currentTurnPlayerId : String
  selectedCards : List SelCard
  scores : PMap
  lifelines : PMap
  missedTurns : PMap
  matchedPairs : Nat
  totalPairs : Nat
  status : GStatus
  processingCards : Bool
  winner : Option String
deriving DecidableEq, Repr

/-- `MemoryGameService.startGame`: build the board, seat the participants in
order, give everyone score 0 and 3 lifelines, and start with player 0. Fails
(changing nothing, `none`) when fewer than two participants exist. -/
def startGame (roomId : String) (now : Nat) (players : List Player) :
    Option GameState :=
  if players.length < 2 then none
  else
    some
      { board := createGameBoard roomId now
        players := players
        currentTurnIndex := 0
        currentTurnPlayerId := (players.getD 0 default).id
        selectedCards := []
        scores := players.map (fun p => (p.id, 0))
        lifelines := players.map (fun p => (p.id, 3))
        missedTurns := players.map (fun p => (p.id, 0))
        matchedPairs := 0
        totalPairs := 15
        status := .playing
        processingCards := false
        winner := none }

/-- Rejection reasons of `selectCard` (each corresponds to one of the
`MEMORY_GAME_ERROR` emissions of the source; `notYourTurn` is the
"Not your turn." rejection). -/
inductive SelectError where
  | gameNotActive
  | notYourTurn
  | processingWait
  | invalidPosition
  | cardAlreadyRevealed
  | maxTwoCards
  | alreadySelectedThisTurn
deriving DecidableEq, Repr

/-- `MemoryGameService.selectCard` on a looked-up game state.

Mirrors the source's check order: game must be `playing`; the acting player
must be the current turn player; no match resolution may be in progress; the
position must be on the board, not already revealed or matched, at most two
cards per turn, no card twice in one turn. On acceptance the card is flipped
and recorded; after the second card `processingCards` stays set (match
resolution is scheduled), otherwise it is cleared. A rejection returns the
state unchanged together with the error. -/
def selectCard (gs : GameState) (playerId : String) (position : Nat) :
    GameState × Option SelectError :=
  if gs.status ≠ .playing then (gs, some .gameNotActive)
  else if gs.currentTurnPlayerId ≠ playerId then (gs, some .notYourTurn)
  else if gs.processingCards then (gs, some .processingWait)
  else if gs.board.length ≤ position then (gs, some .invalidPosition)
  else
    let card := gs.board.getD position default
    if card.isFlipped ∨ card.isMatched then (gs, some .cardAlreadyRevealed)
    else if 2 ≤ gs.selectedCards.length then (gs, some .maxTwoCards)
    else if gs.selectedCards.any (fun sc => sc.position = position) then
      (gs, some .alreadySelectedThisTurn)
    else
      let board' := gs.board.set position { card with isFlipped := true }
      let sel' := gs.selectedCards ++ [⟨position, card.symbol, card.id⟩]
      ({ gs with
          board := board'
          selectedCards := sel'
          processingCards := decide (sel'.length = 2) }, none)

/-- `MemoryGameService.nextTurn`: advance to the next player cyclically and
reset the per-turn fields. -/
def nextTurn (gs : GameState) : GameState :=
  let idx := (gs.currentTurnIndex + 1) % gs.players.length
  { gs with
      currentTurnIndex := idx
      currentTurnPlayerId := (gs.players.getD idx default).id
      selectedCards := []
      processingCards := false }

/-- First player with the maximal score (ties keep the earlier player —
`leaderboard[0]` after the stable descending sort of the source). -/
def firstMaxByScore (players : List Player) (scores : PMap) : Option String :=
  players.foldl
    (fun best p =>
      match best with
      | none => some p.id
      | some b => if pmGet scores b < pmGet scores p.id then some p.id else best)
    none

/-- `MemoryGameService.endGame(gameId, endReason)` restricted to its effect on
the game state and the persisted winner: compute the winner from the end
reason (remaining player for eliminations/quits, highest score for normal
completion, none for network issues) and mark the game FINISHED. -/
def endGame (gs : GameState) (reason : EndReason) : GameState :=
  let winnerId : Option String :=
    if reason = .opponent_eliminated ∨ reason = .opponent_quit then
      (gs.players.head?).map (·.id)
    else if reason = .game_completed then firstMaxByScore gs.players gs.scores
    else none
  { gs with status := .finished, winner := winnerId }

/-- `MemoryGameService.processMatch`: resolve the two selected cards. On a
match, mark them, bump score and matched pairs, end the game when all pairs
are matched, otherwise give the same player another turn; on a mismatch, flip
both back and pass the turn. -/
def processMatch (gs : GameState) : GameState :=
  if gs.selectedCards.length ≠ 2 then gs
  else
    let c1 := gs.selectedCards.getD 0 default
    let c2 := gs.selectedCards.getD 1 default
    if c1.symbol = c2.symbol then
      let b1 := gs.board.set c1.position
        { gs.board.getD c1.position default with isMatched := true }
      let b2 := b1.set c2.position
        { b1.getD c2.position default with isMatched := true }
      let cur := gs.currentTurnPlayerId
      let gs1 : GameState :=
        { gs with
            board := b2
            matchedPairs := gs.matchedPairs + 1
            scores := pmSet gs.scores cur (pmGet gs.scores cur + 10)
            players := gs.players.map (fun p =>
              if p.id = cur then { p with score := p.score + 10 } else p) }
      if gs1.totalPairs ≤ gs1.matchedPairs then endGame gs1 .game_completed
      else { gs1 with selectedCards := [], processingCards := false }
    else
      let b1 := gs.board.set c1.position
        { gs.board.getD c1.position default with isFlipped := false }
      let b2 := b1.set c2.position
        { b1.getD c2.position default with isFlipped := false }
      nextTurn { gs with board := b2 }

/-- The tail of `handleTurnTimeout` after the lifeline block: flip every
pending selected card back, then either advance the turn (when the current
player is still in the game) or re-point the turn at the player now sitting
at `currentTurnIndex`. `cpId` is the id of the player whose turn timed out.
The stale `selectedCards` list is NOT cleared in the second branch, exactly
as in the source. -/
def timeoutFlipAndAdvance (gs : GameState) (cpId : String) : GameState :=
  let board' := gs.selectedCards.foldl
    (fun b sel => b.set sel.position { b.getD sel.position default with isFlipped := false })
    gs.board
  let gs' := { gs with board := board' }
  if gs'.players.any (fun p => p.id = cpId) then nextTurn gs'
  else
    { gs' with currentTurnPlayerId := (gs'.players.getD gs'.currentTurnIndex default).id }

/-- `MemoryGameService.handleTurnTimeout(gameId)`.

Mirrors the source: if the current player exists and has a lifeline left,
deduct one lifeline and record a missed turn; at zero remaining lifelines the
player is removed from the rotation together with the per-player map entries,
and — when exactly one player then remains — the game ends immediately with
reason `opponent_eliminated` (note: in that branch the source returns before
flipping the pending selected cards back); otherwise the turn index is reset
to 0 when it fell off the shortened list, the pending selected cards are
flipped back, and the turn advances. -/
def handleTurnTimeout (gs : GameState) : GameState :=
  match gs.players.find? (fun p => p.id = gs.currentTurnPlayerId) with
  | some cp =>
      if 0 < pmGet gs.lifelines cp.id then
        let gs1 : GameState :=
          { gs with
              lifelines := pmSet gs.lifelines cp.id (pmGet gs.lifelines cp.id - 1)
              missedTurns := pmSet gs.missedTurns cp.id (pmGet gs.missedTurns cp.id + 1) }
        if pmGet gs1.lifelines cp.id = 0 then
          let gs2 : GameState :=
            { gs1 with
                players := gs1.players.filter (fun p => p.id ≠ cp.id)
                scores := pmDel gs1.scores cp.id
                lifelines := pmDel gs1.lifelines cp.id
                missedTurns := pmDel gs1.missedTurns cp.id }
          if gs2.players.length = 1 then endGame gs2 .opponent_eliminated
          else
            let gs3 :=
              if gs2.players.length ≤ gs2.currentTurnIndex then
                { gs2 with currentTurnIndex := 0 }
              else gs2
            timeoutFlipAndAdvance gs3 cp.id
        else timeoutFlipAndAdvance gs1 cp.id
      else timeoutFlipAndAdvance gs cp.id
  | none => timeoutFlipAndAdvance gs gs.currentTurnPlayerId

/-- Reasons passed to `handlePlayerExit`. -/
inductive ExitReason where
  | left
  | disconnected
  | network_issue
deriving DecidableEq, Repr

/-- Remove a player and their per-player map entries from the game state. -/
def removePlayer (gs : GameState) (playerId : String) : GameState :=
  { gs with
      players := gs.players.filter (fun p => p.id ≠ playerId)
      scores := pmDel gs.scores playerId
      lifelines := pmDel gs.lifelines playerId
      missedTurns := pmDel gs.missedTurns playerId }

/-- `MemoryGameService.handlePlayerExit(roomId, playerId, reason)`.

Mirrors the source: nothing happens unless the game is `playing` and the
player is present. In a 2-player game a disconnect ends the game as
`network_issue` and a voluntary leave removes the player and ends the game as
`opponent_quit`. With more players the player is removed; if they were the
current player the turn advances (the index-adjustment `findIndex` of the
source searches the already-filtered list, finds nothing, and never fires);
finally, if only one player remains the game ends as `opponent_quit`. The
turn index is never adjusted for a non-current leaver. -/
def handlePlayerExit (gs : GameState) (playerId : String) (reason : ExitReason) :
    GameState :=
  if gs.status ≠ .playing then gs
  else if (gs.players.find? (fun p => p.id = playerId)).isNone then gs
  else if gs.players.length = 2 then
    if reason = .disconnected ∨ reason = .network_issue then
      endGame gs .network_issue
    else endGame (removePlayer gs playerId) .opponent_quit
  else
    let gs1 := removePlayer gs playerId
    let gs2 := if gs1.currentTurnPlayerId = playerId then nextTurn gs1 else gs1
    if gs2.players.length = 1 then endGame gs2 .opponent_quit
    else gs2

/-! Helper lemmas about the wallet store. -/

theorem getWallet_transactions (db : WalletDB) (uid : String) :
    ((getWallet db uid).2).transactions = db.transactions := by
  unfold getWallet
  cases h : lookupWallet db.wallets uid <;> simp

theorem getWallet_of_lookup (db : WalletDB) (uid : String) (w : Wallet)
    (h : lookupWallet db.wallets uid = some w) : getWallet db uid = (w, db) := by
  unfold getWallet
  rw [h]

theorem lookupWallet_append_of_none (ws1 ws2 : List (String × Wallet))
    (uid : String) (h : lookupWallet ws1 uid = none) :
    lookupWallet (ws1 ++ ws2) uid = lookupWallet ws2 uid := by
  unfold lookupWallet at *
  rw [List.find?_append]
  cases h1 : ws1.find? (fun p => p.1 = uid) with
  | none => simp
  | some p => simp [h1] at h

theorem getWallet_lookup_self (db : WalletDB) (uid : String) :
    lookupWallet ((getWallet db uid).2).wallets uid = some (getWallet db uid).1 := by
  unfold getWallet
  cases h : lookupWallet db.wallets uid with
  | some w => simpa using h
  | none =>
      simp only
      rw [lookupWallet_append_of_none _ _ _ h]
      simp [lookupWallet]

theorem lookupWallet_setWallet_self (ws : List (String × Wallet)) (uid : String)
    (w w0 : Wallet) (h : lookupWallet ws uid = some w0) :
    lookupWallet (setWallet ws uid w) uid = some w := by
  induction ws with
  | nil => simp [lookupWallet] at h
  | cons p rest ih =>
      by_cases hp : p.1 = uid
      · simp [lookupWallet, setWallet, hp]
      · simp only [lookupWallet, setWallet, List.map_cons, if_neg hp] at *
        rw [List.find?_cons_of_neg _ (by simpa using hp)] at h ⊢
        exact ih h

theorem lookupWallet_setWallet_ne (ws : List (String × Wallet)) (uid uid' : String)
    (w : Wallet) (h : uid' ≠ uid) :
    lookupWallet (setWallet ws uid w) uid' = lookupWallet ws uid' := by
  induction ws with
  | nil => simp [lookupWallet, setWallet]
  | cons p rest ih =>
      by_cases hp : p.1 = uid
      · simp only [lookupWallet, setWallet, List.map_cons, if_pos hp] at *
        rw [List.find?_cons_of_neg _ (by simpa using Ne.symm h),
          List.find?_cons_of_neg _ (by simp [hp]; exact fun hc => (h hc.symm).elim)]
        exact ih
      · simp only [lookupWallet, setWallet, List.map_cons, if_neg hp] at *
        cases hq : (decide (p.1 = uid') : Bool) with
        | true =>
            have : p.1 = uid' := of_decide_eq_true hq
            rw [List.find?_cons_of_pos _ (by simpa using this),
              List.find?_cons_of_pos _ (by simpa using this)]
        | false =>
            have : ¬ p.1 = uid' := of_decide_eq_false hq
            rw [List.find?_cons_of_neg _ (by simpa using this),
              List.find?_cons_of_neg _ (by simpa using this)]
            exact ih
/-- Claim C3: an entry-fee debit fails with insufficient balance exactly when
`playable + withdrawable < amount`, leaving the state unchanged; otherwise it
reduces the playable (game) balance first and takes only the remainder from
the withdrawable balance, appending one COMPLETED GAME_ENTRY ledger entry for
(account, sessionId, kind), so after a successful debit both sub-balances
remain non-negative (when they were) and their sum decreases by exactly the
amount. Hypotheses: positive amount, no existing entry for the key, and an
existing wallet row. -/
theorem deductGameEntry_spec (db : WalletDB) (uid : String) (amount : ℚ)
    (gid : String) (w : Wallet)
    (hamt : 0 < amount)
    (hdup : db.transactions.countP (fun t =>
      decide (t.userId = uid ∧ t.gameId = some gid ∧ t.type = .GAME_ENTRY ∧
        (t.status = .COMPLETED ∨ t.status = .PENDING))) = 0)
    (hw : lookupWallet db.wallets uid = some w) :
    ((deductGameEntry db uid amount gid).2 = .insufficientBalance ↔
      w.gameBalance + w.withdrawableBalance < amount) ∧
    (w.gameBalance + w.withdrawableBalance < amount →
      (deductGameEntry db uid amount gid).1 = db) ∧
    (amount ≤ w.gameBalance + w.withdrawableBalance →
      (deductGameEntry db uid amount gid).1.transactions =
        db.transactions ++ [⟨uid, .GAME_ENTRY, amount, .COMPLETED, some gid⟩] ∧
      lookupWallet (deductGameEntry db uid amount gid).1.wallets uid =
        some ⟨w.balance - amount, w.gameBalance - min amount w.gameBalance,
          w.withdrawableBalance - (amount - min amount w.gameBalance)⟩ ∧
      (0 ≤ w.gameBalance → 0 ≤ w.gameBalance - min amount w.gameBalance) ∧
      (0 ≤ w.withdrawableBalance →
        0 ≤ w.withdrawableBalance - (amount - min amount w.gameBalance)) ∧
      (w.gameBalance - min amount w.gameBalance) +
          (w.withdrawableBalance - (amount - min amount w.gameBalance)) =
        (w.gameBalance + w.withdrawableBalance) - amount) := by
  have h0 : ¬ amount ≤ 0 := not_le.mpr hamt
  unfold deductGameEntry
  rw [if_neg h0, if_neg (not_ne_iff.mpr hdup), getWallet_of_lookup db uid w hw]
  by_cases hins : w.gameBalance + w.withdrawableBalance < amount
  · rw [if_pos hins]
    refine ⟨by simpa using hins, fun _ => rfl, fun hle => absurd hins (not_lt.mpr hle)⟩
  · rw [if_neg hins]
    refine ⟨by simp [hins], fun hc => absurd hc hins, fun hle => ?_⟩
    have hmin : (if amount ≤ w.gameBalance then amount else w.gameBalance) =
        min amount w.gameBalance := (min_def amount w.gameBalance).symm
    refine ⟨by simp, ?_, ?_, ?_, ?_⟩
    · simp only [hmin]
      exact lookupWallet_setWallet_self _ _ _ _ hw
    · intro hgb
      rcases le_or_lt amount w.gameBalance with hle2 | hlt2
      · rw [min_eq_left hle2]; linarith
      · rw [min_eq_right (le_of_lt hlt2)]; linarith
    · intro hwb
      have hni := not_lt.mp hins
      rcases le_or_lt amount w.gameBalance with hle2 | hlt2
      · rw [min_eq_left hle2]; linarith
      · rw [min_eq_right (le_of_lt hlt2)]; linarith
    · ring
theorem deductGameEntry_spec_witness :
    (((deductGameEntry ⟨[("u", ⟨100, 60, 40⟩)], []⟩ "u" 50 "g").2 =
        DeductResult.insufficientBalance) ↔ (60 : ℚ) + 40 < 50) ∧
    ((60 : ℚ) + 40 < 50 →
      (deductGameEntry ⟨[("u", ⟨100, 60, 40⟩)], []⟩ "u" 50 "g").1 =
        ⟨[("u", ⟨100, 60, 40⟩)], []⟩) ∧
    ((50 : ℚ) ≤ 60 + 40 →
      (deductGameEntry ⟨[("u", ⟨100, 60, 40⟩)], []⟩ "u" 50 "g").1.transactions =
        [] ++ [⟨"u", .GAME_ENTRY, 50, .COMPLETED, some "g"⟩] ∧
      lookupWallet (deductGameEntry ⟨[("u", ⟨100, 60, 40⟩)], []⟩ "u" 50 "g").1.wallets
          "u" = some ⟨(100 : ℚ) - 50, (60 : ℚ) - min 50 60,
            (40 : ℚ) - (50 - min 50 60)⟩ ∧
      ((0 : ℚ) ≤ 60 → (0 : ℚ) ≤ 60 - min 50 60) ∧
      ((0 : ℚ) ≤ 40 → (0 : ℚ) ≤ 40 - (50 - min 50 60)) ∧
      ((60 : ℚ) - min 50 60) + ((40 : ℚ) - (50 - min 50 60)) = ((60 : ℚ) + 40) - 50) :=
  deductGameEntry_spec ⟨[("u", ⟨100, 60, 40⟩)], []⟩ "u" 50 "g" ⟨100, 60, 40⟩
    (by norm_num) (by rfl) (by rfl)
/-- Claim C2, counterexample: a Credit repeated with the same
(account, session, kind) key is NOT a no-op — at a concrete input the second
`creditWallet` call creates a second COMPLETED ledger entry for the key and
changes the balances (10 became 20), contradicting the claimed
idempotency-by-key of all mutating ledger operations. -/
theorem creditTwice_cex :
    countTx (creditWallet (creditWallet ⟨[("u", ⟨0, 0, 0⟩)], []⟩ "u" 10
        .GAME_WINNING (some "g")).1 "u" 10 .GAME_WINNING (some "g")).1
        "u" (some "g") .GAME_WINNING .COMPLETED = 2 ∧
    lookupWallet (creditWallet (creditWallet ⟨[("u", ⟨0, 0, 0⟩)], []⟩ "u" 10
        .GAME_WINNING (some "g")).1 "u" 10 .GAME_WINNING (some "g")).1.wallets "u" =
      some ⟨20, 0, 20⟩ ∧
    lookupWallet (creditWallet ⟨[("u", ⟨0, 0, 0⟩)], []⟩ "u" 10
        .GAME_WINNING (some "g")).1.wallets "u" = some ⟨10, 0, 10⟩ := by
  norm_num [creditWallet, getWallet, lookupWallet, setWallet, countTx, List.find?]
/-- Claim C2, amended: only the Debit side is idempotent by key. A Debit
(kind ENTRY_FEE) invoked again with the same (account, session) key is a
no-op returning a duplicate-failure result: it creates no second COMPLETED
entry and leaves all balances unchanged. A Credit has no per-key guard: a
repeated Credit with the same (account, session, kind) appends another
COMPLETED entry and increments the account balance again. -/
theorem ledger_retry_semantics (db : WalletDB) (uid : String) (amount : ℚ)
    (gid : String) (hamt : 0 < amount)
    (hdup : 0 < db.transactions.countP (fun t =>
      decide (t.userId = uid ∧ t.gameId = some gid ∧ t.type = .GAME_ENTRY ∧
        (t.status = .COMPLETED ∨ t.status = .PENDING)))) :
    deductGameEntry db uid amount gid = (db, .alreadyDeducted) ∧
    ∀ (ty : TxType) (gid' : Option String),
      (creditWallet db uid amount ty gid').1.transactions =
        db.transactions ++ [⟨uid, ty, amount, .COMPLETED, gid'⟩] ∧
      countTx (creditWallet db uid amount ty gid').1 uid gid' ty .COMPLETED =
        countTx db uid gid' ty .COMPLETED + 1 ∧
      ∃ w' : Wallet,
        lookupWallet (creditWallet db uid amount ty gid').1.wallets uid = some w' ∧
        w'.balance = (getWallet db uid).1.balance + amount := by
  constructor
  · unfold deductGameEntry
    rw [if_neg (not_le.mpr hamt), if_pos (by omega)]
  · intro ty gid'
    unfold creditWallet
    rw [if_neg (not_le.mpr hamt)]
    refine ⟨by simp [getWallet_transactions], ?_, ?_⟩
    · simp only [countTx, getWallet_transactions, List.countP_append]
      simp
    · exact ⟨_, lookupWallet_setWallet_self _ _ _ _ (getWallet_lookup_self db uid), rfl⟩

theorem ledger_retry_semantics_witness :
    deductGameEntry ⟨[("u", ⟨0, 0, 0⟩)],
        [⟨"u", .GAME_ENTRY, 10, .COMPLETED, some "g"⟩]⟩ "u" 10 "g" =
      (⟨[("u", ⟨0, 0, 0⟩)], [⟨"u", .GAME_ENTRY, 10, .COMPLETED, some "g"⟩]⟩,
        .alreadyDeducted) ∧
    ∀ (ty : TxType) (gid' : Option String),
      (creditWallet ⟨[("u", ⟨0, 0, 0⟩)],
          [⟨"u", .GAME_ENTRY, 10, .COMPLETED, some "g"⟩]⟩ "u" 10 ty gid').1.transactions =
        [⟨"u", .GAME_ENTRY, 10, .COMPLETED, some "g"⟩] ++
          [⟨"u", ty, 10, .COMPLETED, gid'⟩] ∧
      countTx (creditWallet ⟨[("u", ⟨0, 0, 0⟩)],
          [⟨"u", .GAME_ENTRY, 10, .COMPLETED, some "g"⟩]⟩ "u" 10 ty gid').1
          "u" gid' ty .COMPLETED =
        countTx ⟨[("u", ⟨0, 0, 0⟩)],
          [⟨"u", .GAME_ENTRY, 10, .COMPLETED, some "g"⟩]⟩ "u" gid' ty .COMPLETED + 1 ∧
      ∃ w' : Wallet,
        lookupWallet (creditWallet ⟨[("u", ⟨0, 0, 0⟩)],
            [⟨"u", .GAME_ENTRY, 10, .COMPLETED, some "g"⟩]⟩ "u" 10 ty gid').1.wallets
            "u" = some w' ∧
        w'.balance = (getWallet ⟨[("u", ⟨0, 0, 0⟩)],
          [⟨"u", .GAME_ENTRY, 10, .COMPLETED, some "g"⟩]⟩ "u").1.balance + 10 :=
  ledger_retry_semantics _ "u" 10 "g" (by norm_num) (by decide)
theorem refundLoop_spec (fee : ℚ) (hfee : 0 < fee) (gid : String) :
    ∀ (us : List String) (db : WalletDB),
      (refundLoop db us fee gid).2 = true ∧
      (refundLoop db us fee gid).1.transactions =
        db.transactions ++ us.map (fun u => ⟨u, .REFUND, fee, .COMPLETED, some gid⟩) := by
  intro us
  induction us with
  | nil => intro db; simp [refundLoop]
  | cons u rest ih =>
      intro db
      have h0 : ¬ fee ≤ 0 := not_le.mpr hfee
      unfold refundLoop
      simp only [creditWallet, if_neg h0]
      constructor
      · exact (ih _).1
      · rw [(ih _).2]
        simp [getWallet_transactions]
theorem settle_twice_winner_aux (s : SysState) (gid : String) (g : Game)
    (w : String) (reason : EndReason)
    (hproc : gid ∉ s.processedWinnings)
    (hgame : getGameById s gid = some g)
    (hnowin : s.db.transactions.countP (fun t =>
      decide (t.gameId = some gid ∧ t.type = .GAME_WINNING ∧
        t.status = .COMPLETED)) = 0)
    (hreason : reason = .game_completed ∨ reason = .opponent_quit ∨
      reason = .opponent_eliminated)
    (hprize : 0 < g.prizePool) :
    safeProcessWinnings s gid (some w) reason =
      ({ s with
          processedWinnings := gid :: s.processedWinnings
          db := (creditWallet s.db w g.prizePool .GAME_WINNING (some gid)).1 },
        .winnerCredited g.prizePool) := by
  have hnet : ¬(reason = .network_issue ∨ reason = .server_error) := by
    rcases hreason with h | h | h <;> subst h <;> simp
  have hpz : ¬ g.prizePool ≤ 0 := not_le.mpr hprize
  unfold safeProcessWinnings
  rw [if_neg hproc, hgame]
  simp only [hnowin, ne_eq, not_true_eq_false, if_neg hnet, if_pos hreason,
    not_false_eq_true, if_false, if_true]
  simp only [creditWallet, if_neg hpz]
theorem settle_twice_refund_aux (s : SysState) (gid : String) (g : Game)
    (reason : EndReason)
    (hproc : gid ∉ s.processedWinnings)
    (hgame : getGameById s gid = some g)
    (hnowin : s.db.transactions.countP (fun t =>
      decide (t.gameId = some gid ∧ t.type = .GAME_WINNING ∧
        t.status = .COMPLETED)) = 0)
    (hreason : reason = .network_issue ∨ reason = .server_error)
    (hfee : 0 < g.entryFee) :
    safeProcessWinnings s gid none reason =
      ({ s with
          processedWinnings := gid :: s.processedWinnings
          db := (refundLoop s.db g.participants g.entryFee gid).1 },
        .refundedAllPlayers) := by
  unfold safeProcessWinnings
  rw [if_neg hproc, hgame]
  simp only [hnowin, ne_eq, not_true_eq_false, if_pos hreason,
    not_false_eq_true, if_false, if_true,
    (refundLoop_spec g.entryFee hfee gid g.participants s.db).1]
theorem countP_eq_one_of_nodup (l : List String) (u : String) (hn : l.Nodup)
    (hu : u ∈ l) : l.countP (fun v => decide (v = u)) = 1 := by
  induction l with
  | nil => simp at hu
  | cons a rest ih =>
      rcases List.mem_cons.mp hu with h | h
      · subst h
        have h0 : rest.countP (fun v => decide (v = u)) = 0 := by
          rw [List.countP_eq_zero]
          intro v hv
          simp only [decide_eq_true_eq]
          intro he
          exact (List.nodup_cons.mp hn).1 (he ▸ hv)
        simp [List.countP_cons, h0]
      · have hne : ¬ a = u := fun he => (List.nodup_cons.mp hn).1 (he ▸ h)
        simp [List.countP_cons, hne, ih (List.nodup_cons.mp hn).2 h]

/-- Claim C1: invoking the settlement twice sequentially is idempotent. Given
a clean pre-state (session not yet marked processed, its game row present, no
COMPLETED GAME_WINNING entry yet), for a winner outcome the first `Settle`
credits the winner exactly the prize pool producing exactly one COMPLETED
(winner, session, WINNING) ledger entry, and for a refund outcome it credits
every participant exactly once; in both outcomes the second invocation
returns `alreadyProcessed` and leaves the entire state — ledger entries and
balances — exactly as after the first. -/
theorem settle_twice_idempotent (s : SysState) (gid : String) (g : Game)
    (hproc : gid ∉ s.processedWinnings)
    (hgame : getGameById s gid = some g)
    (hnowin : s.db.transactions.countP (fun t =>
      decide (t.gameId = some gid ∧ t.type = .GAME_WINNING ∧
        t.status = .COMPLETED)) = 0) :
    (∀ (w : String) (reason : EndReason),
      (reason = .game_completed ∨ reason = .opponent_quit ∨
        reason = .opponent_eliminated) →
      0 < g.prizePool →
      safeProcessWinnings (safeProcessWinnings s gid (some w) reason).1 gid
          (some w) reason =
        ((safeProcessWinnings s gid (some w) reason).1, .alreadyProcessed) ∧
      (safeProcessWinnings s gid (some w) reason).2 =
        .winnerCredited g.prizePool ∧
      countTx (safeProcessWinnings s gid (some w) reason).1.db w (some gid)
        .GAME_WINNING .COMPLETED = 1) ∧
    (∀ reason : EndReason,
      (reason = .network_issue ∨ reason = .server_error) →
      0 < g.entryFee → g.participants.Nodup →
      (∀ u ∈ g.participants,
        countTx s.db u (some gid) .REFUND .COMPLETED = 0) →
      safeProcessWinnings (safeProcessWinnings s gid none reason).1 gid none
          reason =
        ((safeProcessWinnings s gid none reason).1, .alreadyProcessed) ∧
      (safeProcessWinnings s gid none reason).2 = .refundedAllPlayers ∧
      ∀ u ∈ g.participants,
        countTx (safeProcessWinnings s gid none reason).1.db u (some gid)
          .REFUND .COMPLETED = 1) := by
  constructor
  · intro w reason hreason hprize
    have e1 := settle_twice_winner_aux s gid g w reason hproc hgame hnowin
      hreason hprize
    rw [e1]
    refine ⟨?_, rfl, ?_⟩
    · unfold safeProcessWinnings
      rw [if_pos (by simp)]
    · have htx : (creditWallet s.db w g.prizePool .GAME_WINNING
          (some gid)).1.transactions =
          s.db.transactions ++
            [⟨w, .GAME_WINNING, g.prizePool, .COMPLETED, some gid⟩] := by
        simp only [creditWallet, if_neg (not_le.mpr hprize)]
        simp [getWallet_transactions]
      simp only [countTx, htx, List.countP_append]
      have h0 : s.db.transactions.countP (fun t =>
          decide (t.userId = w ∧ t.gameId = some gid ∧ t.type = .GAME_WINNING ∧
            t.status = .COMPLETED)) = 0 := by
        have hle := List.countP_mono_left (l := s.db.transactions)
          (p := fun t => decide (t.userId = w ∧ t.gameId = some gid ∧
            t.type = .GAME_WINNING ∧ t.status = .COMPLETED))
          (q := fun t => decide (t.gameId = some gid ∧ t.type = .GAME_WINNING ∧
            t.status = .COMPLETED))
          (fun x _ hp => by
            simp only [decide_eq_true_eq] at hp ⊢
            exact hp.2)
        omega
      rw [h0]
      simp
  · intro reason hreason hfee hnodup hcounts
    have e1 := settle_twice_refund_aux s gid g reason hproc hgame hnowin
      hreason hfee
    rw [e1]
    refine ⟨?_, rfl, ?_⟩
    · unfold safeProcessWinnings
      rw [if_pos (by simp)]
    · intro u hu
      have htx := (refundLoop_spec g.entryFee hfee gid g.participants s.db).2
      simp only [countTx] at hcounts ⊢
      simp only [htx, List.countP_append, List.countP_map]
      rw [hcounts u hu]
      have hcnt : (List.countP
          ((fun t => decide (t.userId = u ∧ t.gameId = some gid ∧
            t.type = TxType.REFUND ∧ t.status = TxStatus.COMPLETED)) ∘
            (fun v => (⟨v, .REFUND, g.entryFee, .COMPLETED, some gid⟩ : Txn)))
          g.participants) =
          g.participants.countP (fun v => decide (v = u)) := by
        apply List.countP_congr
        intro v _
        simp only [Function.comp_apply, decide_eq_decide]
        simp
      rw [hcnt, countP_eq_one_of_nodup g.participants u hnodup hu]
/-- Demo game for the settlement witnesses: 2 participants, fee 50, pool 80. -/
def settleDemoGame : Game := ⟨"MEMORY", 2, 50, 80, ["a", "b"], .FINISHED⟩

/-- Demo backend state holding `settleDemoGame` under id `g1`. -/
def settleDemoState : SysState :=
  ⟨⟨[("a", ⟨50, 50, 0⟩), ("b", ⟨50, 50, 0⟩)], []⟩, [], [("g1", settleDemoGame)],
    [], [], 0, 0, 0⟩

theorem settle_twice_idempotent_witness :
    (safeProcessWinnings (safeProcessWinnings settleDemoState "g1" (some "a")
        .game_completed).1 "g1" (some "a") .game_completed =
      ((safeProcessWinnings settleDemoState "g1" (some "a") .game_completed).1,
        .alreadyProcessed) ∧
     (safeProcessWinnings settleDemoState "g1" (some "a") .game_completed).2 =
       .winnerCredited 80 ∧
     countTx (safeProcessWinnings settleDemoState "g1" (some "a")
        .game_completed).1.db "a" (some "g1") .GAME_WINNING .COMPLETED = 1) ∧
    (safeProcessWinnings (safeProcessWinnings settleDemoState "g1" none
        .network_issue).1 "g1" none .network_issue =
      ((safeProcessWinnings settleDemoState "g1" none .network_issue).1,
        .alreadyProcessed) ∧
     (safeProcessWinnings settleDemoState "g1" none .network_issue).2 =
       .refundedAllPlayers ∧
     ∀ u ∈ settleDemoGame.participants,
       countTx (safeProcessWinnings settleDemoState "g1" none
         .network_issue).1.db u (some "g1") .REFUND .COMPLETED = 1) := by
  have h := settle_twice_idempotent settleDemoState "g1" settleDemoGame
    (by decide) (by rfl) (by rfl)
  exact ⟨h.1 "a" .game_completed (Or.inl rfl) (by norm_num [settleDemoGame]),
    h.2 .network_issue (Or.inl rfl) (by norm_num [settleDemoGame]) (by decide)
      (by decide)⟩
theorem sumTx_transactions_append (ws ws' : List (String × Wallet))
    (t1 t2 : List Txn) (gid : String) (ty : TxType) :
    sumTx ⟨ws, t1 ++ t2⟩ gid ty = sumTx ⟨ws', t1⟩ gid ty + sumTx ⟨ws', t2⟩ gid ty := by
  simp [sumTx, List.filter_append]

theorem sumTx_eq_zero_of_fresh (db : WalletDB) (gid : String) (ty : TxType)
    (h : ∀ t ∈ db.transactions, t.gameId ≠ some gid) : sumTx db gid ty = 0 := by
  unfold sumTx
  rw [List.filter_eq_nil_iff.mpr]
  · rfl
  · intro t ht
    simp only [decide_eq_true_eq, not_and]
    intro hg
    exact absurd hg (h t ht)

theorem sumTx_map_const (us : List String) (fee : ℚ) (gid : String) (ty : TxType)
    (ws : List (String × Wallet)) :
    sumTx ⟨ws, us.map (fun u => ⟨u, ty, fee, .COMPLETED, some gid⟩)⟩ gid ty =
      us.length * fee := by
  unfold sumTx
  rw [List.filter_eq_self.mpr]
  · rw [List.map_map]
    have : ((fun t : Txn => t.amount) ∘ fun u : String =>
        (⟨u, ty, fee, .COMPLETED, some gid⟩ : Txn)) = fun _ => fee := rfl
    rw [this, List.map_const', List.sum_replicate, nsmul_eq_mul]
  · intro t ht
    simp only [List.mem_map] at ht
    obtain ⟨u, _, rfl⟩ := ht
    simp
theorem deductGameEntry_success_transactions (db : WalletDB) (uid : String)
    (amount : ℚ) (gid : String) (b gb wb : ℚ)
    (h : (deductGameEntry db uid amount gid).2 = .success b gb wb) :
    (deductGameEntry db uid amount gid).1.transactions =
      db.transactions ++ [⟨uid, .GAME_ENTRY, amount, .COMPLETED, some gid⟩] := by
  unfold deductGameEntry at h ⊢
  by_cases h1 : amount ≤ 0
  · rw [if_pos h1] at h
    simp at h
  · rw [if_neg h1] at h ⊢
    by_cases h2 : (db.transactions.countP (fun t =>
        decide (t.userId = uid ∧ t.gameId = some gid ∧ t.type = .GAME_ENTRY ∧
          (t.status = .COMPLETED ∨ t.status = .PENDING)))) ≠ 0
    · rw [if_pos h2] at h
      simp at h
    · rw [if_neg h2] at h ⊢
      by_cases hins : (getWallet db uid).1.gameBalance +
          (getWallet db uid).1.withdrawableBalance < amount
      · simp [hins] at h
      · simp [hins, getWallet_transactions]

theorem debitLoop_transactions (fee : ℚ) (gid : String) :
    ∀ (us : List String) (db : WalletDB), (debitLoop db us fee gid).2 = true →
      (debitLoop db us fee gid).1.transactions =
        db.transactions ++
          us.map (fun u => ⟨u, .GAME_ENTRY, fee, .COMPLETED, some gid⟩) := by
  intro us
  induction us with
  | nil => intro db _; simp [debitLoop]
  | cons u rest ih =>
      intro db h
      rcases hd : deductGameEntry db u fee gid with ⟨db', res⟩
      unfold debitLoop at h ⊢
      rw [hd] at h ⊢
      cases res with
      | success b gb wb =>
          have htx : db'.transactions =
              db.transactions ++ [⟨u, .GAME_ENTRY, fee, .COMPLETED, some gid⟩] := by
            have := deductGameEntry_success_transactions db u fee gid b gb wb
              (by rw [hd])
            rwa [hd] at this
          simp only [List.map_cons]
          rw [ih db' h, htx]
          simp
      | alreadyDeducted => simp at h
      | insufficientBalance => simp at h
      | invalidAmount => simp at h
theorem creditWallet_transactions_of_pos (db : WalletDB) (uid : String)
    (amount : ℚ) (ty : TxType) (gid : Option String) (h : 0 < amount) :
    (creditWallet db uid amount ty gid).1.transactions =
      db.transactions ++ [⟨uid, ty, amount, .COMPLETED, gid⟩] := by
  simp only [creditWallet, if_neg (not_le.mpr h)]
  simp [getWallet_transactions]

theorem settle_winner_sum (s2 : SysState) (gid : String) (g' : Game)
    (w : String) (reason : EndReason)
    (hp2 : gid ∉ s2.processedWinnings)
    (hg2 : getGameById s2 gid = some g')
    (hn2 : s2.db.transactions.countP (fun t => decide (t.gameId = some gid ∧
      t.type = .GAME_WINNING ∧ t.status = .COMPLETED)) = 0)
    (hr2 : reason = .game_completed ∨ reason = .opponent_quit ∨
      reason = .opponent_eliminated)
    (hpz2 : 0 < g'.prizePool) :
    sumTx (safeProcessWinnings s2 gid (some w) reason).1.db gid .GAME_WINNING =
      sumTx s2.db gid .GAME_WINNING + g'.prizePool := by
  rw [settle_twice_winner_aux s2 gid g' w reason hp2 hg2 hn2 hr2 hpz2]
  have htx := creditWallet_transactions_of_pos s2.db w g'.prizePool
    .GAME_WINNING (some gid) hpz2
  simp only [sumTx, htx, List.filter_append, List.map_append, List.sum_append]
  simp

theorem settle_refund_sum (s2 : SysState) (gid : String) (g' : Game)
    (reason : EndReason)
    (hp2 : gid ∉ s2.processedWinnings)
    (hg2 : getGameById s2 gid = some g')
    (hn2 : s2.db.transactions.countP (fun t => decide (t.gameId = some gid ∧
      t.type = .GAME_WINNING ∧ t.status = .COMPLETED)) = 0)
    (hr2 : reason = .network_issue ∨ reason = .server_error)
    (hfz2 : 0 < g'.entryFee) :
    sumTx (safeProcessWinnings s2 gid none reason).1.db gid .REFUND =
      sumTx s2.db gid .REFUND +
        g'.participants.length * g'.entryFee := by
  rw [settle_twice_refund_aux s2 gid g' reason hp2 hg2 hn2 hr2 hfz2]
  have htx := (refundLoop_spec g'.entryFee hfz2 gid g'.participants s2.db).2
  have hmc := sumTx_map_const g'.participants g'.entryFee gid .REFUND []
  simp only [sumTx] at hmc
  simp only [sumTx, htx, List.filter_append, List.map_append, List.sum_append]
  rw [hmc]
/-- Claim C4: for every formed session with entry fee `f` and `n` matched
participants, the entry-fee debits recorded for the session sum to `n·f`; the
prize pool is `0.8·n·f`, hence at most `n·f`; settling a winner outcome
credits the winner exactly the prize pool, and settling a refund outcome
credits the participants exactly `n·f` in total. -/
theorem conservation (s s' : SysState) (ty : String) (n : Nat) (fee : ℚ)
    (gid : String) (g : Game)
    (hres : createGame s ty n fee = (s', .created gid g))
    (hfee : 0 ≤ fee)
    (hfresh : ∀ t ∈ s.db.transactions, t.gameId ≠ some gid) :
    sumTx s'.db gid .GAME_ENTRY = n * fee ∧
    g.entryFee = fee ∧
    g.participants.length = n ∧
    g.prizePool = fee * n * (4 / 5) ∧
    g.prizePool ≤ n * fee ∧
    (∀ (s2 : SysState) (w : String) (reason : EndReason),
      gid ∉ s2.processedWinnings → getGameById s2 gid = some g →
      s2.db.transactions.countP (fun t => decide (t.gameId = some gid ∧
        t.type = .GAME_WINNING ∧ t.status = .COMPLETED)) = 0 →
      (reason = .game_completed ∨ reason = .opponent_quit ∨
        reason = .opponent_eliminated) →
      0 < g.prizePool →
      sumTx (safeProcessWinnings s2 gid (some w) reason).1.db gid .GAME_WINNING =
        sumTx s2.db gid .GAME_WINNING + g.prizePool) ∧
    (∀ (s2 : SysState) (reason : EndReason),
      gid ∉ s2.processedWinnings → getGameById s2 gid = some g →
      s2.db.transactions.countP (fun t => decide (t.gameId = some gid ∧
        t.type = .GAME_WINNING ∧ t.status = .COMPLETED)) = 0 →
      (reason = .network_issue ∨ reason = .server_error) →
      0 < g.entryFee →
      sumTx (safeProcessWinnings s2 gid none reason).1.db gid .REFUND =
        sumTx s2.db gid .REFUND + n * fee) := by
  unfold createGame at hres
  by_cases hn : ((distinctByUser (s.queue.filter (fun q =>
      decide (q.gameType = ty ∧ q.maxPlayers = n ∧ q.entryFee = fee))) []).take
      n).length < n
  · rw [if_pos hn] at hres
    simp at hres
  · rw [if_neg hn] at hres
    have hlen : ((distinctByUser (s.queue.filter (fun q =>
        decide (q.gameType = ty ∧ q.maxPlayers = n ∧ q.entryFee = fee))) []).take
        n).length = n := by
      rw [List.length_take] at hn ⊢
      omega
    by_cases hf : 0 < fee
    · simp only [if_pos hf] at hres
      by_cases hdeb : (debitLoop s.db
          (((distinctByUser (s.queue.filter (fun q =>
            decide (q.gameType = ty ∧ q.maxPlayers = n ∧ q.entryFee = fee))) []).take
            n).map (fun q => q.userId)) fee (genGameId s.nextGameId)).2 = true
      · simp only [hdeb, if_true] at hres
        rw [Prod.mk.injEq] at hres
        obtain ⟨hs', hc⟩ := hres
        rw [CreateGameResult.created.injEq] at hc
        obtain ⟨hgid, hg⟩ := hc
        subst hs' hgid hg
        refine ⟨?_, rfl, by simpa using hlen, rfl, ?_, ?_, ?_⟩
        · have htx := debitLoop_transactions fee (genGameId s.nextGameId) _
            s.db hdeb
          simp only [sumTx, htx, List.filter_append, List.map_append,
            List.sum_append]
          have h0 := sumTx_eq_zero_of_fresh s.db (genGameId s.nextGameId)
            .GAME_ENTRY hfresh
          simp only [sumTx] at h0
          rw [h0]
          have hmc := sumTx_map_const (((distinctByUser (s.queue.filter (fun q =>
            decide (q.gameType = ty ∧ q.maxPlayers = n ∧ q.entryFee = fee)))
            []).take n).map (fun q => q.userId)) fee (genGameId s.nextGameId)
            .GAME_ENTRY []
          simp only [sumTx] at hmc
          rw [hmc, List.length_map, hlen, zero_add]
        · have hnn : (0 : ℚ) ≤ (n : ℚ) * fee :=
            mul_nonneg (Nat.cast_nonneg n) hfee
          nlinarith
        · intro s2 w reason hp2 hg2 hn2 hr2 hpz2
          exact settle_winner_sum s2 (genGameId s.nextGameId) _ w reason hp2
            hg2 hn2 hr2 hpz2
        · intro s2 reason hp2 hg2 hn2 hr2 hfz2
          have hth := settle_refund_sum s2 (genGameId s.nextGameId) _ reason hp2
            hg2 hn2 hr2 hfz2
          rw [List.length_map, hlen] at hth
          exact hth
      · simp only [hdeb, Bool.false_eq_true, if_false] at hres
        simp at hres
    · simp only [if_neg hf] at hres
      rw [Prod.mk.injEq] at hres
      obtain ⟨hs', hc⟩ := hres
      rw [CreateGameResult.created.injEq] at hc
      obtain ⟨hgid, hg⟩ := hc
      subst hs' hgid hg
      have hfz : fee = 0 := le_antisymm (not_lt.mp hf) hfee
      refine ⟨?_, rfl, by simpa using hlen, rfl, ?_, ?_, ?_⟩
      · have h0 := sumTx_eq_zero_of_fresh s.db (genGameId s.nextGameId)
          .GAME_ENTRY hfresh
        simp only [hfz, mul_zero]
        simpa using h0
      · simp [hfz]
      · intro s2 w reason hp2 hg2 hn2 hr2 hpz2
        exact settle_winner_sum s2 (genGameId s.nextGameId) _ w reason hp2
          hg2 hn2 hr2 hpz2
      · intro s2 reason hp2 hg2 hn2 hr2 hfz2
        have hth := settle_refund_sum s2 (genGameId s.nextGameId) _ reason hp2
          hg2 hn2 hr2 hfz2
        rw [List.length_map, hlen] at hth
        exact hth
/-- Demo pre-state for the matchmaking witnesses: two queued users with
sufficient balances for a (MEMORY, 2 players, fee 50) pool. -/
def mmDemoState : SysState :=
  ⟨⟨[("a", ⟨100, 100, 0⟩), ("b", ⟨100, 100, 0⟩)], []⟩,
    [⟨0, "a", "MEMORY", 2, 50⟩, ⟨1, "b", "MEMORY", 2, 50⟩], [], [], [], 0, 2, 0⟩

/-- The game formed from `mmDemoState`. -/
def mmDemoGame : Game := ⟨"MEMORY", 2, 50, 80, ["a", "b"], .WAITING⟩

theorem createGame_demo_result :
    (createGame mmDemoState "MEMORY" 2 50).2 = .created "game0" mmDemoGame := by
  norm_num [createGame, mmDemoState, mmDemoGame, distinctByUser, genGameId,
    debitLoop, deductGameEntry, getWallet, lookupWallet, setWallet, countTx,
    Game.mk.injEq, (by decide : ("b" : String) ≠ "a"),
    (by decide : ("a" : String) ≠ "b"), List.find?,
    (by decide : "game" ++ toString 0 = "game0")]
theorem conservation_witness :
    sumTx (createGame mmDemoState "MEMORY" 2 50).1.db "game0" .GAME_ENTRY =
      ((2 : ℕ) : ℚ) * 50 ∧
    mmDemoGame.entryFee = 50 ∧
    mmDemoGame.participants.length = 2 ∧
    mmDemoGame.prizePool = 50 * ((2 : ℕ) : ℚ) * (4 / 5) ∧
    mmDemoGame.prizePool ≤ ((2 : ℕ) : ℚ) * 50 ∧
    (∀ (s2 : SysState) (w : String) (reason : EndReason),
      "game0" ∉ s2.processedWinnings → getGameById s2 "game0" = some mmDemoGame →
      s2.db.transactions.countP (fun t => decide (t.gameId = some "game0" ∧
        t.type = .GAME_WINNING ∧ t.status = .COMPLETED)) = 0 →
      (reason = .game_completed ∨ reason = .opponent_quit ∨
        reason = .opponent_eliminated) →
      0 < mmDemoGame.prizePool →
      sumTx (safeProcessWinnings s2 "game0" (some w) reason).1.db "game0"
          .GAME_WINNING =
        sumTx s2.db "game0" .GAME_WINNING + mmDemoGame.prizePool) ∧
    (∀ (s2 : SysState) (reason : EndReason),
      "game0" ∉ s2.processedWinnings → getGameById s2 "game0" = some mmDemoGame →
      s2.db.transactions.countP (fun t => decide (t.gameId = some "game0" ∧
        t.type = .GAME_WINNING ∧ t.status = .COMPLETED)) = 0 →
      (reason = .network_issue ∨ reason = .server_error) →
      0 < mmDemoGame.entryFee →
      sumTx (safeProcessWinnings s2 "game0" none reason).1.db "game0" .REFUND =
        sumTx s2.db "game0" .REFUND + ((2 : ℕ) : ℚ) * 50) :=
  conservation mmDemoState (createGame mmDemoState "MEMORY" 2 50).1 "MEMORY" 2 50
    "game0" mmDemoGame
    (by rw [← createGame_demo_result])
    (by norm_num)
    (by simp [mmDemoState])
theorem find?_conj_of_filter_nil (uid : String) (R : QueueEntry → Prop)
    [DecidablePred R] :
    ∀ (l : List QueueEntry),
      l.filter (fun q => decide (q.userId = uid)) = [] →
      l.find? (fun q => decide (q.userId = uid ∧ R q)) = none := by
  intro l
  induction l with
  | nil => intro _; rfl
  | cons q rest ih =>
      intro h
      by_cases hu : q.userId = uid
      · simp [List.filter_cons, hu] at h
      · rw [List.filter_cons_of_neg (by simpa using hu)] at h
        rw [List.find?_cons_of_neg _ (by simp [hu])]
        exact ih h

theorem find?_conj_of_filter_single (uid : String) (e : QueueEntry)
    (R : QueueEntry → Prop) [DecidablePred R] :
    ∀ (l : List QueueEntry),
      l.filter (fun q => decide (q.userId = uid)) = [e] →
      l.find? (fun q => decide (q.userId = uid ∧ R q)) =
        if R e then some e else none := by
  intro l
  induction l with
  | nil => intro h; simp at h
  | cons q rest ih =>
      intro h
      by_cases hu : q.userId = uid
      · rw [List.filter_cons_of_pos (by simpa using hu)] at h
        rw [List.cons_eq_cons] at h
        obtain ⟨rfl, hrest⟩ := h
        by_cases hR : R q
        · rw [List.find?_cons_of_pos _ (by simp [hu, hR]), if_pos hR]
        · rw [List.find?_cons_of_neg _ (by simp [hR]), if_neg hR]
          exact find?_conj_of_filter_nil uid R rest hrest
      · rw [List.filter_cons_of_neg (by simpa using hu)] at h
        rw [List.find?_cons_of_neg _ (by simp [hu])]
        exact ih h

/-- Claim C7, counterexample: joining the pool a second time without leaving
does NOT fail with an AlreadyQueued error — at a concrete input the second
`joinQueue` call returns a success result carrying the existing entry id
(the source replies success: "Already in matchmaking queue for this game"),
though the pool does contain exactly one entry for the user. -/
theorem join_twice_cex :
    (joinQueue (joinQueue ⟨⟨[("u", ⟨100, 100, 0⟩)], []⟩, [], [], [], [], 0, 0, 0⟩
        "u" "MEMORY" 2 50).1 "u" "MEMORY" 2 50).2 = .successAlready 0 ∧
    ((joinQueue (joinQueue ⟨⟨[("u", ⟨100, 100, 0⟩)], []⟩, [], [], [], [], 0, 0, 0⟩
        "u" "MEMORY" 2 50).1 "u" "MEMORY" 2 50).1.queue.filter
      (fun q => decide (q.userId = "u"))).length = 1 := by
  norm_num [joinQueue, getWallet, lookupWallet, List.find?, List.filter]
/-- Claim C7, amended: joining a second time without leaving never fails (the
balance permitting): if the new join names the same pool key, the call
returns success with the existing entry's id and the pool is unchanged; if it
names a different key, the user's previous entries are deleted and a single
fresh entry is inserted. In both cases the pool afterwards contains exactly
one WaitingEntry for the user. -/
theorem join_twice_semantics (s : SysState) (uid gameType : String)
    (maxPlayers : Nat) (entryFee : ℚ) (e : QueueEntry)
    (hq : s.queue.filter (fun q => decide (q.userId = uid)) = [e])
    (hbal : entryFee ≤ 0 ∨ ∃ w, lookupWallet s.db.wallets uid = some w ∧
      entryFee ≤ w.gameBalance + w.withdrawableBalance) :
    ((joinQueue s uid gameType maxPlayers entryFee).2 ≠ .errInsufficientBalance) ∧
    (((joinQueue s uid gameType maxPlayers entryFee).1.queue.filter
      (fun q => decide (q.userId = uid))).length = 1) ∧
    (e.gameType = gameType ∧ e.maxPlayers = maxPlayers ∧ e.entryFee = entryFee →
      joinQueue s uid gameType maxPlayers entryFee = (s, .successAlready e.id)) ∧
    (¬(e.gameType = gameType ∧ e.maxPlayers = maxPlayers ∧ e.entryFee = entryFee) →
      joinQueue s uid gameType maxPlayers entryFee =
        ({ s with
            queue := s.queue.filter (fun q => q.userId ≠ uid) ++
              [⟨s.nextQueueId, uid, gameType, maxPlayers, entryFee⟩]
            nextQueueId := s.nextQueueId + 1 },
          .successJoined s.nextQueueId)) := by
  have hbal' : (if 0 < entryFee then
      if (getWallet s.db uid).1.gameBalance +
          (getWallet s.db uid).1.withdrawableBalance < entryFee then
        (({ s with db := (getWallet s.db uid).2 } : SysState), false)
      else (({ s with db := (getWallet s.db uid).2 } : SysState), true)
      else ((s : SysState), true)) = (s, true) := by
    by_cases hfe : 0 < entryFee
    · rcases hbal with h0 | ⟨w, hw, hwle⟩
      · exact absurd hfe (not_lt.mpr h0)
      · rw [if_pos hfe, getWallet_of_lookup s.db uid w hw]
        rw [if_neg (not_lt.mpr hwle)]
    · rw [if_neg hfe]
  have hjq : joinQueue s uid gameType maxPlayers entryFee =
      (match s.queue.find? (fun q => decide (q.userId = uid ∧
          q.gameType = gameType ∧ q.maxPlayers = maxPlayers ∧
          q.entryFee = entryFee)) with
        | some existing => (s, .successAlready existing.id)
        | none =>
            ({ s with
                queue := s.queue.filter (fun q => q.userId ≠ uid) ++
                  [⟨s.nextQueueId, uid, gameType, maxPlayers, entryFee⟩]
                nextQueueId := s.nextQueueId + 1 },
              .successJoined s.nextQueueId)) := by
    unfold joinQueue
    rw [hbal']
    rfl
  rw [find?_conj_of_filter_single uid e (fun q => q.gameType = gameType ∧
    q.maxPlayers = maxPlayers ∧ q.entryFee = entryFee) s.queue hq] at hjq
  by_cases hkey : e.gameType = gameType ∧ e.maxPlayers = maxPlayers ∧
      e.entryFee = entryFee
  · rw [if_pos hkey] at hjq
    refine ⟨by rw [hjq]; simp, ?_, fun _ => hjq, fun hc => absurd hkey hc⟩
    rw [hjq]
    simp [hq]
  · rw [if_neg hkey] at hjq
    refine ⟨by rw [hjq]; simp, ?_, fun hc => absurd hc hkey, fun _ => hjq⟩
    rw [hjq]
    simp only [List.filter_append]
    have h1 : (s.queue.filter (fun q => q.userId ≠ uid)).filter
        (fun q => decide (q.userId = uid)) = [] := by
      rw [List.filter_filter]
      apply List.filter_eq_nil_iff.mpr
      intro q _
      simp
    rw [h1]
    simp
/-- Demo state for the double-join witness: user `u` already queued once. -/
def joinDemoState : SysState :=
  ⟨⟨[("u", ⟨100, 100, 0⟩)], []⟩, [⟨0, "u", "MEMORY", 2, 50⟩], [], [], [], 0, 1, 0⟩

theorem join_twice_semantics_witness :
    ((joinQueue joinDemoState "u" "MEMORY" 2 50).2 ≠ .errInsufficientBalance) ∧
    (((joinQueue joinDemoState "u" "MEMORY" 2 50).1.queue.filter
      (fun q => decide (q.userId = "u"))).length = 1) ∧
    ((⟨0, "u", "MEMORY", 2, 50⟩ : QueueEntry).gameType = "MEMORY" ∧
      (⟨0, "u", "MEMORY", 2, 50⟩ : QueueEntry).maxPlayers = 2 ∧
      (⟨0, "u", "MEMORY", 2, 50⟩ : QueueEntry).entryFee = 50 →
      joinQueue joinDemoState "u" "MEMORY" 2 50 =
        (joinDemoState, .successAlready (⟨0, "u", "MEMORY", 2, 50⟩ : QueueEntry).id)) ∧
    (¬((⟨0, "u", "MEMORY", 2, 50⟩ : QueueEntry).gameType = "MEMORY" ∧
      (⟨0, "u", "MEMORY", 2, 50⟩ : QueueEntry).maxPlayers = 2 ∧
      (⟨0, "u", "MEMORY", 2, 50⟩ : QueueEntry).entryFee = 50) →
      joinQueue joinDemoState "u" "MEMORY" 2 50 =
        ({ joinDemoState with
            queue := joinDemoState.queue.filter (fun q => q.userId ≠ "u") ++
              [⟨joinDemoState.nextQueueId, "u", "MEMORY", 2, 50⟩]
            nextQueueId := joinDemoState.nextQueueId + 1 },
          .successJoined joinDemoState.nextQueueId)) :=
  join_twice_semantics joinDemoState "u" "MEMORY" 2 50 ⟨0, "u", "MEMORY", 2, 50⟩
    (by decide)
    (Or.inr ⟨⟨100, 100, 0⟩, rfl, by norm_num⟩)
theorem find?_key_of_mem (l : List (String × Bool)) (p : String × Bool)
    (hn : (l.map Prod.fst).Nodup) (hp : p ∈ l) :
    l.find? (fun q => decide (q.1 = p.1)) = some p := by
  induction l with
  | nil => simp at hp
  | cons a rest ih =>
      rcases List.mem_cons.mp hp with h | h
      · subst h
        rw [List.find?_cons_of_pos _ (by simp)]
      · have hne : a.1 ≠ p.1 := by
          intro he
          have : p.1 ∈ rest.map Prod.fst := List.mem_map_of_mem Prod.fst h
          exact (List.nodup_cons.mp hn).1 (he ▸ this)
        rw [List.find?_cons_of_neg _ (by simpa using hne)]
        exact ih (List.nodup_cons.mp hn).2 h

theorem find?_key_append_of_absent (l : List (String × Bool)) (k : String)
    (b : Bool) (h : ∀ p ∈ l, p.1 ≠ k) :
    (l ++ [(k, b)]).find? (fun q => decide (q.1 = k)) = some (k, b) := by
  induction l with
  | nil => simp
  | cons a rest ih =>
      rw [List.cons_append,
        List.find?_cons_of_neg _ (by simpa using h a (List.mem_cons_self a rest))]
      exact ih (fun p hp => h p (List.mem_cons_of_mem a hp))

theorem getBotForMatchmaking_spec (s : SysState) (gameType : String)
    (entryFee : ℚ)
    (hfresh : ∀ p ∈ s.users, p.1 ≠ "bot" ++ toString s.nextBotId)
    (hnodup : (s.users.map Prod.fst).Nodup) :
    (getBotForMatchmaking s gameType entryFee).1.queue =
      s.queue ++ [⟨s.nextQueueId, (getBotForMatchmaking s gameType entryFee).2,
        gameType, 2, entryFee⟩] ∧
    isBotUser (getBotForMatchmaking s gameType entryFee).1
      (getBotForMatchmaking s gameType entryFee).2 = true := by
  unfold getBotForMatchmaking
  cases hb : s.users.find? (fun p =>
      p.2 = true ∧ (s.queue.all (fun q => q.userId ≠ p.1)) = true ∧
        inActiveGame s p.1 = false) with
  | some p =>
      have hmem := List.mem_of_find?_eq_some hb
      have hpred := List.find?_some hb
      simp only [decide_eq_true_eq] at hpred
      have hfk := find?_key_of_mem s.users p hnodup hmem
      constructor
      · by_cases htop : 0 < entryFee ∧
            (getWallet s.db p.1).1.gameBalance < entryFee <;>
          simp [htop, getWallet_transactions]
      · by_cases htop : 0 < entryFee ∧
            (getWallet s.db p.1).1.gameBalance < entryFee <;>
          simp [htop, isBotUser, hfk, hpred.1]
  | none =>
      have hfk := find?_key_append_of_absent s.users
        ("bot" ++ toString s.nextBotId) true hfresh
      constructor
      · by_cases htop : 0 < entryFee ∧
            (getWallet s.db ("bot" ++ toString s.nextBotId)).1.gameBalance <
              entryFee <;>
          simp [htop, getWallet_transactions]
      · by_cases htop : 0 < entryFee ∧
            (getWallet s.db ("bot" ++ toString s.nextBotId)).1.gameBalance <
              entryFee <;>
          simp [htop, isBotUser, hfk]
/-- Claim C8: when a pool key's backfill timer fires with
`0 < count < partySize` and at least one waiting entry of a genuine (non-bot)
participant, exactly one synthetic participant is enqueued (a bot user, as
one fresh queue entry) and an immediate matching pass is scheduled (the
`deployedBot` outcome); when the key already has `count ≥ partySize`, or
`count = 0`, or only bot entries, nothing is enqueued and no pass is
scheduled — a timer firing after the pool filled or emptied is a no-op. -/
theorem backfill_timer_semantics (s : SysState) (gameType : String)
    (maxPlayers : Nat) (entryFee : ℚ)
    (hfresh : ∀ p ∈ s.users, p.1 ≠ "bot" ++ toString s.nextBotId)
    (hnodup : (s.users.map Prod.fst).Nodup) :
    (0 < s.queue.countP (fun q => decide (q.gameType = gameType ∧
        q.maxPlayers = maxPlayers ∧ q.entryFee = entryFee)) →
      s.queue.countP (fun q => decide (q.gameType = gameType ∧
        q.maxPlayers = maxPlayers ∧ q.entryFee = entryFee)) < maxPlayers →
      0 < s.queue.countP (fun q => decide (q.gameType = gameType ∧
        q.maxPlayers = maxPlayers ∧ q.entryFee = entryFee ∧
        isBotUser s q.userId = false)) →
      ∃ bid,
        (deployBotIfNeeded s gameType maxPlayers entryFee).2 = .deployedBot bid ∧
        isBotUser (deployBotIfNeeded s gameType maxPlayers entryFee).1 bid =
          true ∧
        (deployBotIfNeeded s gameType maxPlayers entryFee).1.queue =
          s.queue ++ [⟨s.nextQueueId, bid, gameType, 2, entryFee⟩]) ∧
    ((s.queue.countP (fun q => decide (q.gameType = gameType ∧
        q.maxPlayers = maxPlayers ∧ q.entryFee = entryFee)) = 0 ∨
      maxPlayers ≤ s.queue.countP (fun q => decide (q.gameType = gameType ∧
        q.maxPlayers = maxPlayers ∧ q.entryFee = entryFee)) ∨
      s.queue.countP (fun q => decide (q.gameType = gameType ∧
        q.maxPlayers = maxPlayers ∧ q.entryFee = entryFee ∧
        isBotUser s q.userId = false)) = 0) →
      (deployBotIfNeeded s gameType maxPlayers entryFee).1 = s ∧
      ∀ b, (deployBotIfNeeded s gameType maxPlayers entryFee).2 ≠
        .deployedBot b) := by
  constructor
  · intro h1 h2 h3
    have hcond : 0 < s.queue.countP (fun q => decide (q.gameType = gameType ∧
        q.maxPlayers = maxPlayers ∧ q.entryFee = entryFee)) ∧
        s.queue.countP (fun q => decide (q.gameType = gameType ∧
          q.maxPlayers = maxPlayers ∧ q.entryFee = entryFee)) < maxPlayers :=
      ⟨h1, h2⟩
    have hgb := getBotForMatchmaking_spec s gameType entryFee hfresh hnodup
    unfold deployBotIfNeeded
    rw [if_pos hcond, if_pos h3]
    exact ⟨(getBotForMatchmaking s gameType entryFee).2, rfl, hgb.2, hgb.1⟩
  · intro hskip
    by_cases hc : 0 < s.queue.countP (fun q => decide (q.gameType = gameType ∧
        q.maxPlayers = maxPlayers ∧ q.entryFee = entryFee)) ∧
        s.queue.countP (fun q => decide (q.gameType = gameType ∧
          q.maxPlayers = maxPlayers ∧ q.entryFee = entryFee)) < maxPlayers
    · have hnh : ¬ 0 < s.queue.countP (fun q => decide (q.gameType = gameType ∧
          q.maxPlayers = maxPlayers ∧ q.entryFee = entryFee ∧
          isBotUser s q.userId = false)) := by
        rcases hskip with h | h | h
        · omega
        · omega
        · omega
      unfold deployBotIfNeeded
      rw [if_pos hc, if_neg hnh]
      exact ⟨rfl, fun b h => by cases h⟩
    · by_cases hz : s.queue.countP (fun q => decide (q.gameType = gameType ∧
          q.maxPlayers = maxPlayers ∧ q.entryFee = entryFee)) = 0
      · unfold deployBotIfNeeded
        rw [if_neg hc, if_pos hz]
        exact ⟨rfl, fun b h => by cases h⟩
      · unfold deployBotIfNeeded
        rw [if_neg hc, if_neg hz]
        exact ⟨rfl, fun b h => by cases h⟩
/-- Demo state for the backfill witness: one genuine (human) entry waiting in
the (MEMORY, 2, 50) pool. -/
def backfillDemoState : SysState :=
  ⟨⟨[("h", ⟨100, 100, 0⟩)], []⟩, [⟨0, "h", "MEMORY", 2, 50⟩], [], [],
    [("h", false)], 0, 1, 0⟩

theorem backfill_timer_semantics_witness :
    (0 < backfillDemoState.queue.countP (fun q => decide (q.gameType = "MEMORY" ∧
        q.maxPlayers = 2 ∧ q.entryFee = 50)) →
      backfillDemoState.queue.countP (fun q => decide (q.gameType = "MEMORY" ∧
        q.maxPlayers = 2 ∧ q.entryFee = 50)) < 2 →
      0 < backfillDemoState.queue.countP (fun q => decide (q.gameType = "MEMORY" ∧
        q.maxPlayers = 2 ∧ q.entryFee = 50 ∧
        isBotUser backfillDemoState q.userId = false)) →
      ∃ bid,
        (deployBotIfNeeded backfillDemoState "MEMORY" 2 50).2 = .deployedBot bid ∧
        isBotUser (deployBotIfNeeded backfillDemoState "MEMORY" 2 50).1 bid =
          true ∧
        (deployBotIfNeeded backfillDemoState "MEMORY" 2 50).1.queue =
          backfillDemoState.queue ++
            [⟨backfillDemoState.nextQueueId, bid, "MEMORY", 2, 50⟩]) ∧
    ((backfillDemoState.queue.countP (fun q => decide (q.gameType = "MEMORY" ∧
        q.maxPlayers = 2 ∧ q.entryFee = 50)) = 0 ∨
      2 ≤ backfillDemoState.queue.countP (fun q => decide (q.gameType = "MEMORY" ∧
        q.maxPlayers = 2 ∧ q.entryFee = 50)) ∨
      backfillDemoState.queue.countP (fun q => decide (q.gameType = "MEMORY" ∧
        q.maxPlayers = 2 ∧ q.entryFee = 50 ∧
        isBotUser backfillDemoState q.userId = false)) = 0) →
      (deployBotIfNeeded backfillDemoState "MEMORY" 2 50).1 = backfillDemoState ∧
      ∀ b, (deployBotIfNeeded backfillDemoState "MEMORY" 2 50).2 ≠
        .deployedBot b) :=
  backfill_timer_semantics backfillDemoState "MEMORY" 2 50 (by decide) (by decide)
/-- Claim C5: a card selection is rejected — with the state left unchanged —
whenever the session is not PLAYING, the acting user is not the current
participant, or a prior action is still being resolved; in particular an
action from a non-current participant on an active session is rejected
precisely with the NotYourTurn error. -/
theorem selectCard_rejects (gs : GameState) (pid : String) (pos : Nat)
    (h : gs.status ≠ .playing ∨ gs.currentTurnPlayerId ≠ pid ∨
      gs.processingCards = true) :
    ((selectCard gs pid pos).2).isSome = true ∧
    (selectCard gs pid pos).1 = gs ∧
    (gs.status = .playing → gs.currentTurnPlayerId ≠ pid →
      (selectCard gs pid pos).2 = some .notYourTurn) := by
  unfold selectCard
  rcases h with h | h | h
  · rw [if_pos h]
    exact ⟨rfl, rfl, fun hp _ => absurd hp h⟩
  · by_cases hs : gs.status ≠ .playing
    · rw [if_pos hs]
      exact ⟨rfl, rfl, fun hp _ => absurd hp hs⟩
    · rw [if_neg hs, if_pos h]
      exact ⟨rfl, rfl, fun _ _ => rfl⟩
  · by_cases hs : gs.status ≠ .playing
    · rw [if_pos hs]
      exact ⟨rfl, rfl, fun hp _ => absurd hp hs⟩
    · rw [if_neg hs]
      by_cases ht : gs.currentTurnPlayerId ≠ pid
      · rw [if_pos ht]
        exact ⟨rfl, rfl, fun _ _ => rfl⟩
      · rw [if_neg ht, if_pos h]
        exact ⟨rfl, rfl, fun _ hne => absurd (not_not.mp ht) hne⟩

/-- Demo in-memory game state: two players, player `a` to move, one card
already revealed this turn. -/
def gameDemoState : GameState :=
  { board := [⟨0, 0, 0, false, false⟩, ⟨1, 1, 0, false, false⟩,
      ⟨2, 2, 1, true, false⟩, ⟨3, 3, 1, false, false⟩,
      ⟨4, 4, 2, false, false⟩, ⟨5, 5, 2, false, false⟩]
    players := [⟨"a", "A", 0, 0⟩, ⟨"b", "B", 1, 0⟩]
    currentTurnIndex := 0
    currentTurnPlayerId := "a"
    selectedCards := [⟨2, 1, 2⟩]
    scores := [("a", 0), ("b", 0)]
    lifelines := [("a", 1), ("b", 3)]
    missedTurns := [("a", 0), ("b", 0)]
    matchedPairs := 0
    totalPairs := 3
    status := .playing
    processingCards := false
    winner := none }

theorem selectCard_rejects_witness :
    ((selectCard gameDemoState "b" 0).2).isSome = true ∧
    (selectCard gameDemoState "b" 0).1 = gameDemoState ∧
    (gameDemoState.status = .playing → gameDemoState.currentTurnPlayerId ≠ "b" →
      (selectCard gameDemoState "b" 0).2 = some .notYourTurn) :=
  selectCard_rejects gameDemoState "b" 0 (Or.inr (Or.inl (by decide)))
/-! Helper lemmas about the per-player maps and the flip-back fold. -/

theorem pmGet_cons_self (x : String × Nat) (l : PMap) (k : String)
    (h : x.1 = k) : pmGet (x :: l) k = x.2 := by
  unfold pmGet
  rw [List.find?_cons_of_pos _ (by simpa using h)]
  rfl

theorem pmGet_cons_ne (x : String × Nat) (l : PMap) (k : String)
    (h : ¬ x.1 = k) : pmGet (x :: l) k = pmGet l k := by
  unfold pmGet
  rw [List.find?_cons_of_neg _ (by simpa using h)]

theorem pmHas_cons_elim (x : String × Nat) (l : PMap) (k : String)
    (h : pmHas (x :: l) k = true) (hx : ¬ x.1 = k) : pmHas l k = true := by
  simp only [pmHas, List.any_cons, Bool.or_eq_true, decide_eq_true_eq] at h ⊢
  rcases h with h | h
  · exact absurd h hx
  · exact h

theorem pmHas_cons_split (x : String × Nat) (l : PMap) (k : String)
    (h : ¬ pmHas (x :: l) k = true) : ¬ x.1 = k ∧ ¬ pmHas l k = true := by
  simp only [pmHas, List.any_cons, Bool.or_eq_true, decide_eq_true_eq,
    not_or] at h ⊢
  exact h

theorem pmGet_map_self (m : PMap) (k : String) (v : Nat)
    (hh : pmHas m k = true) :
    pmGet (m.map (fun p => if p.1 = k then (k, v) else p)) k = v := by
  induction m with
  | nil => simp [pmHas] at hh
  | cons p rest ih =>
      by_cases hk : p.1 = k
      · rw [List.map_cons, if_pos hk, pmGet_cons_self _ _ _ rfl]
      · rw [List.map_cons, if_neg hk, pmGet_cons_ne _ _ _ hk]
        exact ih (pmHas_cons_elim p rest k hh hk)

theorem pmGet_map_ne (m : PMap) (k k' : String) (v : Nat) (h : ¬ k = k') :
    pmGet (m.map (fun p => if p.1 = k then (k, v) else p)) k' = pmGet m k' := by
  induction m with
  | nil => rfl
  | cons p rest ih =>
      by_cases hk : p.1 = k
      · rw [List.map_cons, if_pos hk, pmGet_cons_ne _ _ _ h,
          pmGet_cons_ne _ _ _ (by rw [hk]; exact h)]
        exact ih
      · by_cases hk' : p.1 = k'
        · rw [List.map_cons, if_neg hk, pmGet_cons_self _ _ _ hk',
            pmGet_cons_self _ _ _ hk']
        · rw [List.map_cons, if_neg hk, pmGet_cons_ne _ _ _ hk',
            pmGet_cons_ne _ _ _ hk']
          exact ih

theorem pmGet_append_self (m : PMap) (k : String) (v : Nat)
    (hh : ¬ pmHas m k = true) : pmGet (m ++ [(k, v)]) k = v := by
  induction m with
  | nil => rw [List.nil_append, pmGet_cons_self _ _ _ rfl]
  | cons p rest ih =>
      obtain ⟨h1, h2⟩ := pmHas_cons_split p rest k hh
      rw [List.cons_append, pmGet_cons_ne _ _ _ h1]
      exact ih h2

theorem pmGet_append_ne (m : PMap) (k k' : String) (v : Nat) (h : ¬ k = k') :
    pmGet (m ++ [(k, v)]) k' = pmGet m k' := by
  induction m with
  | nil =>
      rw [List.nil_append, pmGet_cons_ne _ _ _ h]
  | cons p rest ih =>
      by_cases hk' : p.1 = k'
      · rw [List.cons_append, pmGet_cons_self _ _ _ hk',
          pmGet_cons_self _ _ _ hk']
      · rw [List.cons_append, pmGet_cons_ne _ _ _ hk',
          pmGet_cons_ne _ _ _ hk']
        exact ih

theorem pmGet_pmSet_self (m : PMap) (k : String) (v : Nat) :
    pmGet (pmSet m k v) k = v := by
  unfold pmSet
  by_cases hh : pmHas m k
  · rw [if_pos hh]
    exact pmGet_map_self m k v hh
  · rw [if_neg hh]
    exact pmGet_append_self m k v hh

theorem pmGet_pmSet_ne (m : PMap) (k k' : String) (v : Nat) (h : ¬ k = k') :
    pmGet (pmSet m k v) k' = pmGet m k' := by
  unfold pmSet
  by_cases hh : pmHas m k
  · rw [if_pos hh]
    exact pmGet_map_ne m k k' v h
  · rw [if_neg hh]
    exact pmGet_append_ne m k k' v h
/-- One flip-back step never re-reveals a position that is already face-down. -/
theorem flip_step_preserves (b : List Card) (p : Nat) (s : SelCard)
    (h : (b.getD p default).isFlipped = false) :
    ((b.set s.position
      { b.getD s.position default with isFlipped := false }).getD p
        default).isFlipped = false := by
  by_cases hp : s.position = p
  · subst hp
    by_cases hlt : s.position < b.length
    · simp [List.getD_eq_getElem?_getD, List.getElem?_set_self hlt]
    · rw [List.set_eq_of_length_le (Nat.le_of_not_lt hlt)]
      exact h
  · simp only [List.getD_eq_getElem?_getD, List.getElem?_set_ne hp]
    simpa [List.getD_eq_getElem?_getD] using h

/-- The flip-back fold keeps already face-down positions face-down. -/
theorem flip_fold_preserves (sels : List SelCard) :
    ∀ (b : List Card) (p : Nat), (b.getD p default).isFlipped = false →
      (((sels.foldl (fun b s => b.set s.position
        { b.getD s.position default with isFlipped := false }) b)).getD p
          default).isFlipped = false := by
  induction sels with
  | nil => intro b p h; exact h
  | cons s rest ih =>
      intro b p h
      exact ih _ p (flip_step_preserves b p s h)

/-- After the flip-back fold every selected position is face-down. -/
theorem flip_fold_covers (sels : List SelCard) :
    ∀ (b : List Card), ∀ sel ∈ sels,
      (((sels.foldl (fun b s => b.set s.position
        { b.getD s.position default with isFlipped := false }) b)).getD
          sel.position default).isFlipped = false := by
  induction sels with
  | nil => intro b sel h; simp at h
  | cons s rest ih =>
      intro b sel hmem
      rcases List.mem_cons.mp hmem with h | h
      · subst h
        rw [List.foldl_cons]
        apply flip_fold_preserves
        by_cases hlt : sel.position < b.length
        · simp [List.getD_eq_getElem?_getD, List.getElem?_set_self hlt]
        · rw [List.set_eq_of_length_le (Nat.le_of_not_lt hlt)]
          rw [List.getD_eq_getElem?_getD,
            List.getElem?_eq_none (Nat.le_of_not_lt hlt)]
          rfl
      · rw [List.foldl_cons]
        exact ih _ sel h
theorem tfa_status (gs : GameState) (cpId : String) :
    (timeoutFlipAndAdvance gs cpId).status = gs.status := by
  unfold timeoutFlipAndAdvance
  by_cases h : gs.players.any (fun p => p.id = cpId) <;> simp [h, nextTurn]

theorem tfa_players (gs : GameState) (cpId : String) :
    (timeoutFlipAndAdvance gs cpId).players = gs.players := by
  unfold timeoutFlipAndAdvance
  by_cases h : gs.players.any (fun p => p.id = cpId) <;> simp [h, nextTurn]

theorem tfa_lifelines (gs : GameState) (cpId : String) :
    (timeoutFlipAndAdvance gs cpId).lifelines = gs.lifelines := by
  unfold timeoutFlipAndAdvance
  by_cases h : gs.players.any (fun p => p.id = cpId) <;> simp [h, nextTurn]

theorem tfa_board (gs : GameState) (cpId : String) :
    (timeoutFlipAndAdvance gs cpId).board =
      gs.selectedCards.foldl (fun b sel => b.set sel.position
        { b.getD sel.position default with isFlipped := false }) gs.board := by
  unfold timeoutFlipAndAdvance
  by_cases h : gs.players.any (fun p => p.id = cpId) <;> simp [h, nextTurn]

theorem players_filter_ne_length (players : List Player) (cp : Player)
    (hn : (players.map (fun p => p.id)).Nodup) (hmem : cp ∈ players) :
    (players.filter (fun p => p.id ≠ cp.id)).length = players.length - 1 := by
  induction players with
  | nil => simp at hmem
  | cons a rest ih =>
      by_cases ha : a.id = cp.id
      · have hrest : rest.filter (fun p => decide (p.id ≠ cp.id)) = rest := by
          apply List.filter_eq_self.mpr
          intro p hp
          have hane : ¬ p.id = a.id := by
            intro he
            have hmm : a.id ∈ rest.map (fun p => p.id) := by
              rw [← he]
              exact List.mem_map_of_mem _ hp
            exact (List.nodup_cons.mp hn).1 hmm
          simp only [decide_eq_true_eq, ne_eq]
          rw [← ha]
          exact hane
        rw [List.filter_cons_of_neg (by simpa using ha), hrest]
        simp
      · have hcp : cp ∈ rest := by
          rcases List.mem_cons.mp hmem with h | h
          · exact absurd (congrArg (fun p => p.id) h).symm ha
          · exact h
        have hpos : 0 < rest.length := List.length_pos_of_mem hcp
        rw [List.filter_cons_of_pos (by simpa using ha)]
        rw [List.length_cons, ih (List.nodup_cons.mp hn).2 hcp]
        simp only [List.length_cons]
        omega
/-- Claim C6, amended: when the turn timer fires before the two-card quota is
met, the current participant loses exactly one lifeline; a participant
reaching zero lifelines is removed from the rotation; if exactly one
participant then remains, the session terminates with that remaining
participant as winner — but in that terminating branch the pending selected
cards are NOT flipped back (the source returns before the flip-back; the
board is left exactly as it was). In every non-terminating branch every
pending selected card is flipped back. -/
theorem turn_timeout_semantics (gs : GameState) (cp : Player) (L : Nat)
    (hfind : gs.players.find? (fun p => p.id = gs.currentTurnPlayerId) = some cp)
    (hL : pmGet gs.lifelines cp.id = L) (hLpos : 0 < L)
    (hnodup : (gs.players.map (fun p => p.id)).Nodup) :
    (2 ≤ L →
      pmGet (handleTurnTimeout gs).lifelines cp.id = L - 1 ∧
      ((handleTurnTimeout gs).players.any (fun p => p.id = cp.id)) = true ∧
      (handleTurnTimeout gs).status = gs.status ∧
      ∀ sel ∈ gs.selectedCards,
        (((handleTurnTimeout gs).board.getD sel.position default).isFlipped =
          false)) ∧
    (L = 1 →
      ((handleTurnTimeout gs).players.all (fun p => p.id ≠ cp.id)) = true ∧
      (gs.players.length = 2 →
        ∃ q, gs.players.filter (fun p => p.id ≠ cp.id) = [q] ∧
          (handleTurnTimeout gs).status = .finished ∧
          (handleTurnTimeout gs).winner = some q.id ∧
          (handleTurnTimeout gs).board = gs.board) ∧
      (3 ≤ gs.players.length →
        (handleTurnTimeout gs).status = gs.status ∧
        ∀ sel ∈ gs.selectedCards,
          (((handleTurnTimeout gs).board.getD sel.position default).isFlipped =
            false))) := by
  have hmem : cp ∈ gs.players := List.mem_of_find?_eq_some hfind
  have hflen := players_filter_ne_length gs.players cp hnodup hmem
  unfold handleTurnTimeout
  rw [hfind]
  simp only []
  rw [hL, if_pos hLpos]
  simp only [pmGet_pmSet_self]
  by_cases hone : L = 1
  · subst hone
    rw [if_pos rfl]
    refine ⟨fun h2 => by omega, fun _ => ?_⟩
    by_cases hlen1 : gs.players.length = 2
    · have hlf : (gs.players.filter (fun p => decide (p.id ≠ cp.id))).length = 1 := by
        rw [hflen, hlen1]
      rw [if_pos hlf]
      obtain ⟨q, hq⟩ := List.length_eq_one.mp hlf
      refine ⟨?_, fun _ => ⟨q, hq, ?_, ?_, rfl⟩, fun h3 => by omega⟩
      · simp only [endGame]
        apply List.all_eq_true.mpr
        intro p hp
        have := List.of_mem_filter hp
        simpa using this
      · simp [endGame]
      · simp only [endGame]
        rw [hq]
        simp
    · rw [if_neg (by rw [hflen]; omega)]
      have habs : ∀ (g2 : GameState),
          g2.players = gs.players.filter (fun p => decide (p.id ≠ cp.id)) →
          (timeoutFlipAndAdvance g2 cp.id).players.all
            (fun p => p.id ≠ cp.id) = true := by
        intro g2 hp2
        rw [tfa_players, hp2]
        apply List.all_eq_true.mpr
        intro p hp
        have := List.of_mem_filter hp
        simpa using this
      constructor
      · split
        · exact habs _ rfl
        · exact habs _ rfl
      constructor
      · intro h2
        exact absurd h2 hlen1
      · intro h3
        constructor
        · split
          · rw [tfa_status]
          · rw [tfa_status]
        · intro sel hsel
          split
          · rw [tfa_board]
            exact flip_fold_covers gs.selectedCards gs.board sel hsel
          · rw [tfa_board]
            exact flip_fold_covers gs.selectedCards gs.board sel hsel
  · rw [if_neg (by omega)]
    refine ⟨fun _ => ⟨?_, ?_, ?_, ?_⟩, fun h1 => absurd h1 hone⟩
    · rw [tfa_lifelines]
      simp only [pmGet_pmSet_self]
    · rw [tfa_players]
      exact List.any_eq_true.mpr ⟨cp, hmem, by simp⟩
    · rw [tfa_status]
    · intro sel hsel
      rw [tfa_board]
      exact flip_fold_covers gs.selectedCards gs.board sel hsel
/-- Demo state for the timeout theorems: 2 players, player `a` (current, one
lifeline left) has one pending selected card at position 2, which is face-up. -/
def timeoutDemoState : GameState :=
  { board := [⟨0, 0, 0, false, false⟩, ⟨1, 1, 0, false, false⟩,
      ⟨2, 2, 1, true, false⟩, ⟨3, 3, 1, false, false⟩,
      ⟨4, 4, 2, false, false⟩, ⟨5, 5, 2, false, false⟩]
    players := [⟨"a", "A", 0, 0⟩, ⟨"b", "B", 1, 0⟩]
    currentTurnIndex := 0
    currentTurnPlayerId := "a"
    selectedCards := [⟨2, 1, 2⟩]
    scores := [("a", 0), ("b", 0)]
    lifelines := [("a", 1), ("b", 3)]
    missedTurns := [("a", 0), ("b", 0)]
    matchedPairs := 0
    totalPairs := 3
    status := .playing
    processingCards := false
    winner := none }

/-- Claim C6, counterexample: a turn timeout that eliminates the current
participant and thereby terminates the session does NOT flip the pending
selected card back — at this concrete input the game ends (winner `b`) with
the selected card at position 2 still face-up, contradicting the claim that
every pending selected card is flipped back on timeout. -/
theorem turn_timeout_cex :
    (handleTurnTimeout timeoutDemoState).status = .finished ∧
    (handleTurnTimeout timeoutDemoState).winner = some "b" ∧
    ((handleTurnTimeout timeoutDemoState).board.getD 2 default).isFlipped =
      true := by
  decide

theorem turn_timeout_semantics_witness :
    (2 ≤ 1 →
      pmGet (handleTurnTimeout timeoutDemoState).lifelines
        (⟨"a", "A", 0, 0⟩ : Player).id = 1 - 1 ∧
      ((handleTurnTimeout timeoutDemoState).players.any
        (fun p => p.id = (⟨"a", "A", 0, 0⟩ : Player).id)) = true ∧
      (handleTurnTimeout timeoutDemoState).status = timeoutDemoState.status ∧
      ∀ sel ∈ timeoutDemoState.selectedCards,
        (((handleTurnTimeout timeoutDemoState).board.getD sel.position
          default).isFlipped = false)) ∧
    (1 = 1 →
      ((handleTurnTimeout timeoutDemoState).players.all
        (fun p => p.id ≠ (⟨"a", "A", 0, 0⟩ : Player).id)) = true ∧
      (timeoutDemoState.players.length = 2 →
        ∃ q, timeoutDemoState.players.filter
            (fun p => p.id ≠ (⟨"a", "A", 0, 0⟩ : Player).id) = [q] ∧
          (handleTurnTimeout timeoutDemoState).status = .finished ∧
          (handleTurnTimeout timeoutDemoState).winner = some q.id ∧
          (handleTurnTimeout timeoutDemoState).board = timeoutDemoState.board) ∧
      (3 ≤ timeoutDemoState.players.length →
        (handleTurnTimeout timeoutDemoState).status = timeoutDemoState.status ∧
        ∀ sel ∈ timeoutDemoState.selectedCards,
          (((handleTurnTimeout timeoutDemoState).board.getD sel.position
            default).isFlipped = false))) :=
  turn_timeout_semantics timeoutDemoState ⟨"a", "A", 0, 0⟩ 1 (by decide)
    (by decide) (by decide) (by decide)
/-! Helper lemmas for the board shuffle. -/

theorem countP_set_balance (p : Card → Bool) (a : Card) :
    ∀ (l : List Card) (i : Nat), i < l.length →
      (l.set i a).countP p + (if p (l.getD i default) = true then 1 else 0) =
        l.countP p + (if p a = true then 1 else 0) := by
  intro l
  induction l with
  | nil => intro i h; simp at h
  | cons c rest ih =>
      intro i h
      cases i with
      | zero =>
          simp only [List.set_cons_zero, List.getD_cons_zero, List.countP_cons]
          omega
      | succ n =>
          simp only [List.set_cons_succ, List.getD_cons_succ, List.countP_cons]
          have := ih n (by simpa using Nat.lt_of_succ_lt_succ h)
          omega

theorem swapCards_countP (p : Card → Bool) (l : List Card) (i j : Nat)
    (hi : i < l.length) (hj : j < l.length) :
    (swapCards l i j).countP p = l.countP p := by
  unfold swapCards
  have e1 := countP_set_balance p (l.getD j default) l i hi
  have e2 := countP_set_balance p (l.getD i default)
    (l.set i (l.getD j default)) j (by simpa using hj)
  by_cases hij : i = j
  · subst hij
    have hd : (l.set i (l.getD i default)).getD i default = l.getD i default := by
      simp [List.getD_eq_getElem?_getD, List.getElem?_set_self hi]
    rw [hd] at e2
    omega
  · have hd : (l.set i (l.getD j default)).getD j default = l.getD j default := by
      simp [List.getD_eq_getElem?_getD, List.getElem?_set_ne hij]
    rw [hd] at e2
    omega

theorem swapCards_length (l : List Card) (i j : Nat) :
    (swapCards l i j).length = l.length := by
  simp [swapCards]

theorem fisherYatesDown_spec (p : Card → Bool) :
    ∀ (i : Nat) (l : List Card) (s : Nat), i < l.length →
      (fisherYatesDown l s i).1.countP p = l.countP p ∧
      (fisherYatesDown l s i).1.length = l.length := by
  intro i
  induction i with
  | zero => intro l s _; exact ⟨rfl, rfl⟩
  | succ n ih =>
      intro l s h
      have hs : seededNext s < 2147483647 := Nat.mod_lt _ (by norm_num)
      have hj : (seededNext s) * (n + 2) / 2147483647 < n + 2 := by
        rw [Nat.div_lt_iff_lt_mul (by norm_num)]
        calc seededNext s * (n + 2) < 2147483647 * (n + 2) :=
              Nat.mul_lt_mul_of_lt_of_le hs (le_refl _) (by omega)
          _ = (n + 2) * 2147483647 := Nat.mul_comm _ _
      unfold fisherYatesDown
      have hlen : (swapCards l (n + 1)
          ((seededNext s) * (n + 2) / 2147483647)).length = l.length :=
        swapCards_length _ _ _
      have hrec := ih (swapCards l (n + 1)
        ((seededNext s) * (n + 2) / 2147483647)) (seededNext s)
        (by rw [hlen]; omega)
      refine ⟨?_, ?_⟩
      · rw [hrec.1, swapCards_countP p l (n + 1) _ h (by omega)]
      · rw [hrec.2, hlen]
theorem shufflePass_spec (p : Card → Bool) (ls : List Card × Nat)
    (h : 0 < ls.1.length) :
    (shufflePass ls).1.countP p = ls.1.countP p ∧
    (shufflePass ls).1.length = ls.1.length := by
  unfold shufflePass
  exact fisherYatesDown_spec p (ls.1.length - 1) ls.1 ls.2 (Nat.sub_lt h one_pos)

theorem renumberFrom_countP (p : Card → Bool)
    (hp : ∀ (c : Card) (n : Nat), p { c with position := n } = p c) :
    ∀ (n : Nat) (l : List Card), (renumberFrom n l).countP p = l.countP p := by
  intro n l
  induction l generalizing n with
  | nil => rfl
  | cons c cs ih => simp [renumberFrom, List.countP_cons, hp, ih]

theorem renumberFrom_length :
    ∀ (n : Nat) (l : List Card), (renumberFrom n l).length = l.length := by
  intro n l
  induction l generalizing n with
  | nil => rfl
  | cons c cs ih => simp [renumberFrom, ih]

theorem createGameBoard_eq (roomId : String) (now : Nat) :
    createGameBoard roomId now =
      renumberFrom 0 (shufflePass (shufflePass (shufflePass
        (initialCards,
          if roomId ≠ "" then (roomId.data.map Char.toNat).sum else now)))).1 := rfl

theorem tripleShuffle_countP (p : Card → Bool)
    (hp : ∀ (c : Card) (n : Nat), p { c with position := n } = p c) (seed : Nat) :
    (renumberFrom 0 (shufflePass (shufflePass (shufflePass
        (initialCards, seed)))).1).countP p = initialCards.countP p ∧
    (renumberFrom 0 (shufflePass (shufflePass (shufflePass
        (initialCards, seed)))).1).length = 30 := by
  have h0 : initialCards.length = 30 := by decide
  have h1 := shufflePass_spec p (initialCards, seed) (by rw [h0]; norm_num)
  have h2 := shufflePass_spec p (shufflePass (initialCards, seed))
    (by rw [h1.2, h0]; norm_num)
  have h3 := shufflePass_spec p (shufflePass (shufflePass (initialCards, seed)))
    (by rw [h2.2, h1.2, h0]; norm_num)
  constructor
  · rw [renumberFrom_countP p hp, h3.1, h2.1, h1.1]
  · rw [renumberFrom_length, h3.2, h2.2, h1.2, h0]

/-- **C9 counterexample.** The shuffle is *not* deterministic in the room id
for the empty room id: there the seed falls back to the clock
(`Date.now()`), and two different clock values yield different boards. -/
theorem board_cex : createGameBoard "" 0 ≠ createGameBoard "" 1 := by decide

/-- **C9.** For every non-empty room id, the board built by
`createGameBoard` has exactly 30 cards, each of the 15 symbols appears on
exactly two cards, every card starts unflipped and unmatched, and the board
does not depend on the clock value — the same room id always yields the same
arrangement. -/
theorem board_construction (roomId : String) (now now2 : Nat)
    (h : roomId ≠ "") :
    (createGameBoard roomId now).length = 30 ∧
    (∀ s, s < 15 →
      (createGameBoard roomId now).countP (fun c => decide (c.symbol = s)) = 2) ∧
    (∀ c ∈ createGameBoard roomId now,
      c.isFlipped = false ∧ c.isMatched = false) ∧
    createGameBoard roomId now2 = createGameBoard roomId now := by
  have hseed : (if roomId ≠ "" then (roomId.data.map Char.toNat).sum else now)
      = (roomId.data.map Char.toNat).sum := if_pos h
  have hseed2 : (if roomId ≠ "" then (roomId.data.map Char.toNat).sum else now2)
      = (roomId.data.map Char.toNat).sum := if_pos h
  have hboard : createGameBoard roomId now =
      renumberFrom 0 (shufflePass (shufflePass (shufflePass
        (initialCards, (roomId.data.map Char.toNat).sum)))).1 := by
    rw [createGameBoard_eq, hseed]
  refine ⟨?_, ?_, ?_, ?_⟩
  · rw [hboard]
    exact (tripleShuffle_countP (fun _ => true) (fun _ _ => rfl) _).2
  · intro s hs
    rw [hboard,
      (tripleShuffle_countP (fun c => decide (c.symbol = s)) (fun _ _ => rfl) _).1]
    interval_cases s <;> decide
  · intro c hc
    have hcount : (createGameBoard roomId now).countP
        (fun c => c.isFlipped || c.isMatched) = 0 := by
      rw [hboard,
        (tripleShuffle_countP (fun c => c.isFlipped || c.isMatched)
          (fun _ _ => rfl) _).1]
      decide
    have := List.countP_eq_zero.mp hcount c hc
    simp only [Bool.or_eq_true, not_or, Bool.not_eq_true] at this
    exact this
  · rw [hboard, createGameBoard_eq, hseed2]

/-- Closed witness for `board_construction` at the room id `"demo"`. -/
theorem board_construction_witness :
    ("demo" : String) ≠ "" ∧
    ((createGameBoard "demo" 5).length = 30 ∧
    (∀ s, s < 15 →
      (createGameBoard "demo" 5).countP (fun c => decide (c.symbol = s)) = 2) ∧
    (∀ c ∈ createGameBoard "demo" 5,
      c.isFlipped = false ∧ c.isMatched = false) ∧
    createGameBoard "demo" 7 = createGameBoard "demo" 5) :=
  ⟨by decide, board_construction "demo" 5 7 (by decide)⟩
/-! C10: the turn-state invariant. -/

/-- The turn-state invariant of a running game: while the status is
`playing`, the seated players have pairwise distinct ids, at least two
players remain, at most two cards are selected this turn, the turn index is
a valid position in the (possibly compacted) players list, and
`currentTurnPlayerId` is the id of the player seated at that index. (The
first two conjuncts strengthen the claimed invariant; they hold after
`startGame` for distinct participants and are needed by the preservation
argument.) -/
def GameInv (gs : GameState) : Prop :=
  gs.status = .playing →
    ((gs.players.map (fun p => p.id)).Nodup ∧
     2 ≤ gs.players.length ∧
     gs.selectedCards.length ≤ 2 ∧
     gs.currentTurnIndex < gs.players.length ∧
     (gs.players.getD gs.currentTurnIndex default).id = gs.currentTurnPlayerId)

instance decGameInv (gs : GameState) : Decidable (GameInv gs) := by
  unfold GameInv
  infer_instance

theorem nextTurn_inv (gs : GameState) (h : GameInv gs) : GameInv (nextTurn gs) := by
  intro hst
  obtain ⟨hnd, hlen, hsel, hidx, hcur⟩ := h hst
  refine ⟨hnd, hlen, ?_, ?_, rfl⟩
  · simp [nextTurn]
  · show (gs.currentTurnIndex + 1) % gs.players.length < gs.players.length
    exact Nat.mod_lt _ (by omega)

theorem startGame_inv (roomId : String) (now : Nat) (players : List Player)
    (gs : GameState) (hnd : (players.map (fun p => p.id)).Nodup)
    (h : startGame roomId now players = some gs) : GameInv gs := by
  unfold startGame at h
  by_cases hl : players.length < 2
  · rw [if_pos hl] at h
    exact absurd h (by simp)
  · rw [if_neg hl] at h
    have hgs := (Option.some.inj h).symm
    subst hgs
    intro _
    refine ⟨hnd, ?_, by simp, ?_, rfl⟩
    · show 2 ≤ players.length
      omega
    · show 0 < players.length
      omega

theorem selectCard_inv (gs : GameState) (pid : String) (pos : Nat)
    (h : GameInv gs) : GameInv (selectCard gs pid pos).1 := by
  unfold selectCard
  simp only []
  split
  · exact h
  split
  · exact h
  split
  · exact h
  split
  · exact h
  split
  · exact h
  split
  · exact h
  split
  · exact h
  rename_i h6 h7
  intro hst
  have hst' : gs.status = .playing := hst
  obtain ⟨hnd, hlen, hsel, hidx, hcur⟩ := h hst'
  refine ⟨hnd, hlen, ?_, hidx, hcur⟩
  show (gs.selectedCards ++
    [(⟨pos, (gs.board.getD pos default).symbol,
      (gs.board.getD pos default).id⟩ : SelCard)]).length ≤ 2
  rw [List.length_append, List.length_singleton]
  omega
theorem map_score_ids (players : List Player) (cur : String) :
    ((players.map (fun p =>
      if p.id = cur then { p with score := p.score + 10 } else p)).map
        (fun p => p.id)) = players.map (fun p => p.id) := by
  rw [List.map_map]
  apply List.map_congr_left
  intro p _
  simp only [Function.comp_apply]
  split <;> rfl

theorem getD_map_score (players : List Player) (cur : String) (i : Nat)
    (hi : i < players.length) :
    (((players.map (fun p =>
      if p.id = cur then { p with score := p.score + 10 } else p)).getD i
        default).id) = ((players.getD i default).id) := by
  rw [List.getD_eq_getElem?_getD, List.getD_eq_getElem?_getD,
    List.getElem?_map, List.getElem?_eq_getElem hi]
  simp only [Option.map_some', Option.getD_some]
  split <;> rfl

theorem processMatch_inv (gs : GameState) (h : GameInv gs) :
    GameInv (processMatch gs) := by
  unfold processMatch
  simp only []
  split
  · exact h
  split
  · -- symbols match
    split
    · -- all pairs matched: the game ends, the invariant is vacuous
      intro hst
      simp [endGame] at hst
    · -- same player keeps the turn
      intro hst
      have hst' : gs.status = .playing := hst
      obtain ⟨hnd, hlen, hsel, hidx, hcur⟩ := h hst'
      refine ⟨?_, ?_, ?_, ?_, ?_⟩
      · show ((gs.players.map (fun p =>
          if p.id = gs.currentTurnPlayerId then { p with score := p.score + 10 }
          else p)).map (fun p => p.id)).Nodup
        rw [map_score_ids]
        exact hnd
      · show 2 ≤ (gs.players.map (fun p =>
          if p.id = gs.currentTurnPlayerId then { p with score := p.score + 10 }
          else p)).length
        rw [List.length_map]
        exact hlen
      · show ([] : List SelCard).length ≤ 2
        simp
      · show gs.currentTurnIndex < (gs.players.map (fun p =>
          if p.id = gs.currentTurnPlayerId then { p with score := p.score + 10 }
          else p)).length
        rw [List.length_map]
        exact hidx
      · show ((gs.players.map (fun p =>
          if p.id = gs.currentTurnPlayerId then { p with score := p.score + 10 }
          else p)).getD gs.currentTurnIndex default).id = gs.currentTurnPlayerId
        rw [getD_map_score gs.players gs.currentTurnPlayerId gs.currentTurnIndex hidx]
        exact hcur
  · -- mismatch: flip back and pass the turn
    exact nextTurn_inv _ (fun hst => h hst)
theorem tfa_inv_mem (gs : GameState) (cpId : String)
    (hmem : gs.players.any (fun p => p.id = cpId) = true)
    (h : GameInv gs) : GameInv (timeoutFlipAndAdvance gs cpId) := by
  unfold timeoutFlipAndAdvance
  simp only [hmem, if_true]
  exact nextTurn_inv _ (fun hst => h hst)

theorem tfa_inv_absent (gs : GameState) (cpId : String)
    (habs : gs.players.any (fun p => p.id = cpId) = false)
    (hnd : (gs.players.map (fun p => p.id)).Nodup)
    (hlen : 2 ≤ gs.players.length)
    (hsel : gs.selectedCards.length ≤ 2)
    (hidx : gs.currentTurnIndex < gs.players.length) :
    GameInv (timeoutFlipAndAdvance gs cpId) := by
  unfold timeoutFlipAndAdvance
  simp only [habs, if_false]
  intro _
  exact ⟨hnd, hlen, hsel, hidx, rfl⟩

theorem handleTurnTimeout_status (gs : GameState) :
    (handleTurnTimeout gs).status = gs.status ∨
    (handleTurnTimeout gs).status = .finished := by
  unfold handleTurnTimeout
  cases hfind : gs.players.find? (fun p => p.id = gs.currentTurnPlayerId) with
  | none => exact Or.inl (tfa_status _ _)
  | some cp =>
      simp only [pmGet_pmSet_self]
      split
      · split
        · split
          · exact Or.inr rfl
          · refine Or.inl ?_
            rw [tfa_status]
            split <;> rfl
        · exact Or.inl (tfa_status _ _)
      · exact Or.inl (tfa_status _ _)

theorem handleTurnTimeout_inv (gs : GameState) (h : GameInv gs) :
    GameInv (handleTurnTimeout gs) := by
  by_cases hst : gs.status = .playing
  · obtain ⟨hnd, hlen, hsel, hidx, hcur⟩ := h hst
    have hmem0 : gs.players.getD gs.currentTurnIndex default ∈ gs.players := by
      rw [List.getD_eq_getElem?_getD, List.getElem?_eq_getElem hidx]
      simp
    cases hfind : gs.players.find? (fun p => p.id = gs.currentTurnPlayerId) with
    | none =>
        exfalso
        have hnone := List.find?_eq_none.mp hfind _ hmem0
        exact hnone (by simp only [decide_eq_true_eq]; exact hcur)
    | some cp =>
        have hcpmem : cp ∈ gs.players := List.mem_of_find?_eq_some hfind
        have hflen := players_filter_ne_length gs.players cp hnd hcpmem
        unfold handleTurnTimeout
        rw [hfind]
        simp only [pmGet_pmSet_self]
        by_cases hl : 0 < pmGet gs.lifelines cp.id
        · rw [if_pos hl]
          by_cases hz : pmGet gs.lifelines cp.id - 1 = 0
          · rw [if_pos hz]
            by_cases h1 : (gs.players.filter (fun p => p.id ≠ cp.id)).length = 1
            · rw [if_pos h1]
              intro hst'
              simp [endGame] at hst'
            · rw [if_neg h1]
              have habs : (gs.players.filter (fun p => p.id ≠ cp.id)).any
                  (fun p => p.id = cp.id) = false := by
                simp only [List.any_eq_false]
                intro p hp
                have := List.of_mem_filter hp
                simpa using this
              have hnd2 : ((gs.players.filter (fun p => p.id ≠ cp.id)).map
                  (fun p => p.id)).Nodup :=
                List.Nodup.sublist ((List.filter_sublist _).map _) hnd
              rw [hflen] at h1
              have hlen2 : 2 ≤ (gs.players.filter
                  (fun p => p.id ≠ cp.id)).length := by
                rw [hflen]
                omega
              split
              · exact tfa_inv_absent _ _ habs hnd2 hlen2 hsel
                  (lt_of_lt_of_le (by norm_num) hlen2)
              · rename_i h2
                exact tfa_inv_absent _ _ habs hnd2 hlen2 hsel (Nat.lt_of_not_le h2)
          · rw [if_neg hz]
            exact tfa_inv_mem _ _ (List.any_eq_true.mpr ⟨cp, hcpmem, by simp⟩)
              (fun hst'' => h hst'')
        · rw [if_neg hl]
          exact tfa_inv_mem _ _ (List.any_eq_true.mpr ⟨cp, hcpmem, by simp⟩) h
  · intro hst'
    rcases handleTurnTimeout_status gs with he | he
    · rw [he] at hst'
      exact absurd hst' hst
    · rw [he] at hst'
      exact GStatus.noConfusion hst'
/-- Demo state for the invariant theorems: a 3-player running game with the
second player (`b`) to move. -/
def exitDemoState : GameState :=
  { board := [⟨0, 0, 0, false, false⟩, ⟨1, 1, 0, false, false⟩,
      ⟨2, 2, 1, false, false⟩, ⟨3, 3, 1, false, false⟩,
      ⟨4, 4, 2, false, false⟩, ⟨5, 5, 2, false, false⟩]
    players := [⟨"a", "A", 0, 0⟩, ⟨"b", "B", 1, 0⟩, ⟨"c", "C", 2, 0⟩]
    currentTurnIndex := 1
    currentTurnPlayerId := "b"
    selectedCards := []
    scores := [("a", 0), ("b", 0), ("c", 0)]
    lifelines := [("a", 3), ("b", 3), ("c", 3)]
    missedTurns := [("a", 0), ("b", 0), ("c", 0)]
    matchedPairs := 0
    totalPairs := 3
    status := .playing
    processingCards := false
    winner := none }

/-- Claim C10, counterexample: `handlePlayerExit` does NOT preserve the
turn-state invariant. When the non-current player `a` leaves this 3-player
game, the source removes `a` and — because the current player check compares
against the leaver — never re-points the turn: the game stays `playing` with
`currentTurnIndex` now seating a player whose id differs from
`currentTurnPlayerId`. -/
theorem player_exit_cex :
    (handlePlayerExit exitDemoState "a" .left).status = .playing ∧
    ((handlePlayerExit exitDemoState "a" .left).players.getD
      (handlePlayerExit exitDemoState "a" .left).currentTurnIndex default).id ≠
      (handlePlayerExit exitDemoState "a" .left).currentTurnPlayerId := by
  decide

/-- Claim C10, amended: the turn-state invariant `GameInv` — at most two
selected cards, a valid `currentTurnIndex`, and agreement between the index
and `currentTurnPlayerId` while the game is `playing` (strengthened with
distinct seated ids and at least two seated players) — is established by
`startGame` for participants with distinct ids and preserved by
`selectCard`, `processMatch`, `nextTurn` and `handleTurnTimeout`.
`handlePlayerExit` violates it (see the counterexample): a non-current
player leaving a 3-or-more-player game desynchronises the turn pointer. -/
theorem game_state_invariant :
    (∀ (roomId : String) (now : Nat) (players : List Player) (gs : GameState),
      (players.map (fun p => p.id)).Nodup →
      startGame roomId now players = some gs → GameInv gs) ∧
    (∀ (gs : GameState) (pid : String) (pos : Nat),
      GameInv gs → GameInv (selectCard gs pid pos).1) ∧
    (∀ gs : GameState, GameInv gs → GameInv (processMatch gs)) ∧
    (∀ gs : GameState, GameInv gs → GameInv (nextTurn gs)) ∧
    (∀ gs : GameState, GameInv gs → GameInv (handleTurnTimeout gs)) :=
  ⟨startGame_inv, selectCard_inv, processMatch_inv, nextTurn_inv,
    handleTurnTimeout_inv⟩

/-- Closed witness for `game_state_invariant`: the `nextTurn` conjunct
applied to the concrete 3-player demo state. -/
theorem game_state_invariant_witness : GameInv (nextTurn exitDemoState) :=
  game_state_invariant.2.2.2.1 exitDemoState (by decide)
